import Mathlib

/-!
# Heat map of monthly global land-surface temperature: the chart builder

A shallow embedding of `src/index.js`.  The script is a single function
`buildHeatMap` over a fetched dataset, written against the d3 charting
library.  Numbers are exact rationals: the properties of the colour scale, the
legend and the cell geometry are stated in exact arithmetic.  For the cell
geometry the band scale is given a second time with every operation rounded to
binary64 (`d3.scaleBand64`), which is what the script emits.  The two pieces of
ambient mutable state
of the script are made explicit in `Page`: the drawing root `svg`, and the
library's shared colour table `d3.schemeRdYlBu[11]`, which `buildHeatMap`
reverses in place.

The d3 functions the script calls are not part of the repository; the
definitions in namespace `d3` follow the library's published source
(d3-array, d3-scale, d3-scale-chromatic as bundled for d3 version 4), restricted
to the options the script sets.  The tooltip (d3-tip) and the text formatting
of tick labels are not embedded.
-/

/-! ## The d3 functions used by the script -/

/-- The library's `bisectRight(a, x, lo, hi)` loop:
`while (lo < hi) { mid = lo + hi >>> 1; if (a[mid] > x) hi = mid; else lo = mid + 1; }`.
The first argument bounds the number of iterations; `hi - lo` iterations always
suffice because every iteration shrinks `hi - lo`. -/
def d3.bisectLoop (a : List ℚ) (x : ℚ) : Nat → Nat → Nat → Nat
  | 0, lo, _ => lo
  | fuel + 1, lo, hi =>
    if lo < hi then
      let mid := (lo + hi) / 2
      if a.getD mid 0 > x then d3.bisectLoop a x fuel lo mid
      else d3.bisectLoop a x fuel (mid + 1) hi
    else lo

/-- The library's `d3.bisectRight(a, x, lo, hi)`. -/
def d3.bisectRight (a : List ℚ) (x : ℚ) (lo hi : Nat) : Nat :=
  d3.bisectLoop a x (hi - lo) lo hi

/-- The library's `d3.scaleThreshold().domain(domain).range(range)` applied to `x`:
`n = Math.min(domain.length, range.length - 1)` and
`scale(x) = range[bisect(domain, x, 0, n)]`. -/
def d3.scaleThreshold (domain : List ℚ) (range : List String) (x : ℚ) : Option String :=
  let n := Nat.min domain.length (range.length - 1)
  range.get? (d3.bisectRight domain x 0 n)

/-- The library's `d3.range(start, stop, step)`:
`n = Math.max(0, Math.ceil((stop - start) / step)) | 0` and `range[i] = start + i * step`.
For `step = 0` the quotient is infinite or NaN in JavaScript and `| 0` makes `n = 0`;
the rational quotient by zero is `0`, which gives `n = 0` as well. -/
def d3.range (start stop step : ℚ) : List ℚ :=
  let n := (Int.ceil ((stop - start) / step)).toNat
  (List.range n).map (fun (i : Nat) => start + (i : ℚ) * step)

/-- The library's ordinal `scale.domain(_)`: the values are pushed in order, a value
whose key is already indexed is skipped. -/
def d3.ordinalDomain (values : List Int) : List Int :=
  values.foldl (fun domain d => if d ∈ domain then domain else domain ++ [d]) []

/-- A band scale after `rescale()`: the de-duplicated domain, the start of every
band and the common bandwidth. -/
structure d3.BandScale where
  domain : List Int
  values : List ℚ
  bandwidth : ℚ

/-- The library's `d3.scaleBand().domain(values).range([r0, r1])` with the default
`paddingInner = 0`, `paddingOuter = 0`, `align = 0.5`, `round = false`, in exact
arithmetic; `d3.scaleBand64` is the same computation in binary64. -/
def d3.scaleBand (values : List Int) (r0 r1 : ℚ) : d3.BandScale :=
  let domain := d3.ordinalDomain values
  let n : ℚ := (domain.length : ℚ)
  let reverse := decide (r1 < r0)
  let start := if reverse then r1 else r0
  let stop := if reverse then r0 else r1
  let step := (stop - start) / max 1 (n - 0 + 0 * 2)
  let start := start + (stop - start - step * (n - 0)) * (1 / 2)
  let bandwidth := step * (1 - 0)
  let vs := (List.range domain.length).map (fun (i : Nat) => start + step * (i : ℚ))
  { domain := domain, values := if reverse then vs.reverse else vs, bandwidth := bandwidth }

/-- Applying a band scale: the ordinal lookup `range[(i - 1) % range.length]` for an
indexed key, `undefined` (here `none`) for a value outside the domain. -/
def d3.BandScale.apply (s : d3.BandScale) (d : Int) : Option ℚ :=
  if d ∈ s.domain then s.values.get? (s.domain.indexOf d % s.values.length) else none

/-- Rounding to the nearest integer, a tie going to the even neighbour. -/
def d3.roundHalfEven (x : ℚ) : Int :=
  if x - (⌊x⌋ : ℚ) < 1 / 2 then ⌊x⌋
  else if 1 / 2 < x - (⌊x⌋ : ℚ) then ⌊x⌋ + 1
  else if ⌊x⌋ % 2 = 0 then ⌊x⌋ else ⌊x⌋ + 1

/-- The IEEE 754 binary64 number nearest to `q` (ties to even), which is what one
JavaScript arithmetic operation returns for the exact result `q`: a 53-bit significand
scaled by the power of two that `q` lies above. Overflow and subnormal numbers are left
out; the pixel coordinates of the chart are far from both. -/
def d3.binary64 (q : ℚ) : ℚ :=
  if q = 0 then 0
  else (d3.roundHalfEven (q / (2 : ℚ) ^ (Int.log 2 |q| - 52)) : ℚ) *
    (2 : ℚ) ^ (Int.log 2 |q| - 52)

/-- The band scale `d3.scaleBand().domain(values).range([r0, r1])` as the library
computes it on numbers: the same steps as `d3.scaleBand`, each operation on
non-integers rounded to binary64 (`n - paddingInner + paddingOuter * 2` and
`1 - paddingInner` are small integers and exact). -/
def d3.scaleBand64 (values : List Int) (r0 r1 : ℚ) : d3.BandScale :=
  let domain := d3.ordinalDomain values
  let n : ℚ := (domain.length : ℚ)
  let reverse := decide (r1 < r0)
  let start := if reverse then r1 else r0
  let stop := if reverse then r0 else r1
  let step := d3.binary64 (d3.binary64 (stop - start) / max 1 (n - 0 + 0 * 2))
  let start := d3.binary64 (start +
    d3.binary64 (d3.binary64 (d3.binary64 (stop - start) - d3.binary64 (step * (n - 0))) * (1 / 2)))
  let bandwidth := d3.binary64 (step * (1 - 0))
  let vs := (List.range domain.length).map
    (fun (i : Nat) => d3.binary64 (start + d3.binary64 (step * (i : ℚ))))
  { domain := domain, values := if reverse then vs.reverse else vs, bandwidth := bandwidth }

/-- The library's `d3.scaleLinear().domain([d0, d1]).range([r0, r1])` applied to `x`
(no clamping): `r0 + (r1 - r0) * t` with `t = (x - d0) / (d1 - d0)`, and the constant
`t = d1 - d0` when the domain is degenerate. -/
def d3.scaleLinear (d0 d1 r0 r1 : ℚ) (x : ℚ) : ℚ :=
  let b := d1 - d0
  let t := if b ≠ 0 then (x - d0) / b else b
  r0 + (r1 - r0) * t

/-- The library's `d3.min(values, accessor)` over the accessor's results: `undefined`
(here `none`) for an empty array, otherwise a left-to-right scan keeping the smaller. -/
def d3.min : List ℚ → Option ℚ
  | [] => none
  | v :: vs => some (vs.foldl (fun m x => if m > x then x else m) v)

/-- The library's `d3.max(values, accessor)`, the mirror image of `d3.min`. -/
def d3.max : List ℚ → Option ℚ
  | [] => none
  | v :: vs => some (vs.foldl (fun m x => if m < x then x else m) v)

/-- The library's table `d3.schemeRdYlBu[11]` as shipped: red, through yellow, to blue. -/
def d3.schemeRdYlBu11 : List String :=
  ["#a50026", "#d73027", "#f46d43", "#fdae61", "#fee090", "#ffffbf",
   "#e0f3f8", "#abd9e9", "#74add1", "#4575b4", "#313695"]

/-- A list of numbers in non-decreasing order, by index: the order `bisectRight`
expects of a threshold domain. -/
def d3.Ascending (a : List ℚ) : Prop :=
  ∀ i j, i ≤ j → j < a.length → a.getD i 0 ≤ a.getD j 0

/-- The distinct values of a list in order of first appearance: what the band scale's
domain is said to be, written as a recursion on the list. -/
def d3.firstAppearance : List Int → List Int
  | [] => []
  | x :: xs => x :: (d3.firstAppearance xs).filter (fun y => decide (y ≠ x))

namespace HeatMap

/-! ## Data model and layout constants -/

/-- One record of `monthlyVariance`. -/
structure Observation where
  year : Int
  month : Int
  variance : ℚ
  deriving DecidableEq

/-- The fetched dataset. -/
structure Dataset where
  baseTemperature : ℚ
  monthlyVariance : List Observation
  deriving DecidableEq

/-- The `margin` object of the script. -/
structure Margin where
  top : ℚ
  right : ℚ
  bottom : ℚ
  left : ℚ

/-- The script's `margin`. -/
def margin : Margin := { top := 100, right := 20, bottom := 60, left := 60 }

/-- The script's `width = 1420 - margin.left - margin.right`. -/
def width : ℚ := 1420 - margin.left - margin.right

/-- The script's `height = 630 - margin.top - margin.bottom`. -/
def height : ℚ := 630 - margin.top - margin.bottom

/-- The script's `numOfColors`. -/
def numOfColors : Nat := 10

/-- The script's `blockSize`. -/
def blockSize : ℚ := 30

/-- A `rect.cell` of the map. An attribute whose callback returns `undefined` is not
set (`none`). -/
structure Cell where
  x : Option ℚ
  y : Option ℚ
  dataMonth : Int
  dataYear : Int
  dataTemp : ℚ
  width : ℚ
  height : ℚ
  fill : Option String
  deriving DecidableEq

/-- A `rect` of the legend. -/
structure Block where
  width : ℚ
  height : ℚ
  x : ℚ
  y : ℚ
  fill : Option String
  deriving DecidableEq

/-- The children appended to the drawing root, in document order. -/
inductive Node where
  | title (x y : ℚ) (text : String)
  | description (x y : ℚ) (baseTemperature : ℚ)
  | xAxis (tickValues : List Int)
  | yAxis (tickValues : List Int)
  | map (cells : List Cell)
  | legend (blocks : List Block) (tickValues : List ℚ)
  deriving DecidableEq

/-- The ambient state of the page: the shared table `d3.schemeRdYlBu[11]` and the
children of the drawing root `svg`. -/
structure Page where
  schemeRdYlBu11 : List String
  svg : List Node
  deriving DecidableEq

/-- The page once the module body has run: the library table is as shipped, the root
holds the title. -/
def moduleLoad : Page :=
  { schemeRdYlBu11 := d3.schemeRdYlBu11,
    svg := [Node.title (width / 2) (0 - margin.top / 2) "Monthly Global Land-Surface Temperature"] }

/-! ## The script's functions -/

/-- The script's `legendThreshold(min, max, count)` (defined in the script, called
nowhere): `for (i = 1; i < count; i++) array.push(min + i * step)`. -/
def legendThreshold (min max : ℚ) (count : Nat) : List ℚ :=
  let step := (max - min) / (count : ℚ)
  (List.range (count - 1)).map (fun j => min + ((j + 1 : Nat) : ℚ) * step)

/-- The absolute temperatures `baseTemperature + d.variance`, in dataset order. -/
def temperatures (dataset : Dataset) : List ℚ :=
  dataset.monthlyVariance.map (fun d => dataset.baseTemperature + d.variance)

/-- The local `min` of `buildHeatMap`. -/
def min (dataset : Dataset) : Option ℚ := d3.min (temperatures dataset)

/-- The local `max` of `buildHeatMap`. -/
def max (dataset : Dataset) : Option ℚ := d3.max (temperatures dataset)

/-- The local `xScale` of `buildHeatMap`. -/
def xScale (dataset : Dataset) : d3.BandScale :=
  d3.scaleBand (dataset.monthlyVariance.map (fun d => d.year)) 1 width

/-- The tick values of the local `xAxis`: `xScale.domain().filter(year => year % 10 === 0)`,
with the truncating remainder of JavaScript. -/
def xAxisTickValues (dataset : Dataset) : List Int :=
  (xScale dataset).domain.filter (fun year => Int.tmod year 10 == 0)

/-- The local `yScale` of `buildHeatMap`. -/
def yScale : d3.BandScale :=
  d3.scaleBand [0, 1, 2, 3, 4, 5, 6, 7, 8, 9, 10, 11] 0 (height - margin.bottom)

/-- The domain given to the local `colorScale`:
`d3.range(min, max, (max - min) / numOfColors)`. On an empty dataset `min` and `max`
are `undefined`, the step is NaN and `d3.range` returns the empty array. -/
def colorDomain (dataset : Dataset) : List ℚ :=
  match min dataset, max dataset with
  | some lo, some hi => d3.range lo hi ((hi - lo) / (numOfColors : ℚ))
  | _, _ => []

/-- The local `colorScale` of `buildHeatMap`, over the range it was given. -/
def colorScale (range : List String) (dataset : Dataset) (x : ℚ) : Option String :=
  d3.scaleThreshold (colorDomain dataset) range x

/-- The local `legendX` of `buildHeatMap`. On an empty dataset the domain is
`[undefined, undefined]` and every image is NaN (here `none`). -/
def legendX (dataset : Dataset) (x : ℚ) : Option ℚ :=
  match min dataset, max dataset with
  | some lo, some hi => some (d3.scaleLinear lo hi 0 ((numOfColors : ℚ) * blockSize) x)
  | _, _ => none

/-- The rectangle appended for one observation. -/
def cell (range : List String) (dataset : Dataset) (d : Observation) : Cell :=
  { x := (xScale dataset).apply d.year,
    y := yScale.apply (d.month - 1),
    dataMonth := d.month - 1,
    dataYear := d.year,
    dataTemp := dataset.baseTemperature + d.variance,
    width := (xScale dataset).bandwidth,
    height := yScale.bandwidth,
    fill := colorScale range dataset (dataset.baseTemperature + d.variance) }

/-- The legend rectangles: one per element of `colorScale.domain()`, at `i * blockSize`. -/
def legendBlocks (range : List String) (dataset : Dataset) : List Block :=
  (colorDomain dataset).enum.map (fun p =>
    { width := blockSize, height := blockSize, x := (p.1 : ℚ) * blockSize, y := -blockSize,
      fill := colorScale range dataset p.2 })

/-- The script's `buildHeatMap(dataset)`. `Array.prototype.reverse` reverses the shared
table in place and returns it; the scale copies it as its range. The five groups are
appended to the drawing root in the order of the script. -/
def buildHeatMap (dataset : Dataset) (page : Page) : Page :=
  let range := page.schemeRdYlBu11.reverse
  { schemeRdYlBu11 := range,
    svg := page.svg ++
      [ Node.description (width / 2) (35 - margin.top / 2) dataset.baseTemperature,
        Node.xAxis (xAxisTickValues dataset),
        Node.yAxis yScale.domain,
        Node.map (dataset.monthlyVariance.map (cell range dataset)),
        Node.legend (legendBlocks range dataset) ((colorDomain dataset).drop 1) ] }

/-- An error object handed to the fetch callback. -/
structure FetchError where
  status : Nat
  deriving DecidableEq

/-- The callback given to `d3.json`: `(error, dataset) => !error && buildHeatMap(dataset)`.
The library passes `null` (here `none`) for `error` on success. -/
def fetchCallback (error : Option FetchError) (dataset : Dataset) (page : Page) : Page :=
  match error with
  | none => buildHeatMap dataset page
  | some _ => page

/-! ## Reading the drawing root -/

/-- All `rect.cell` elements under the root, in document order. -/
def Page.cells (page : Page) : List Cell :=
  page.svg.flatMap (fun n => match n with
    | Node.map cs => cs
    | _ => [])

/-- All legend rectangles under the root, in document order. -/
def Page.legendBlocks (page : Page) : List Block :=
  page.svg.flatMap (fun n => match n with
    | Node.legend bs _ => bs
    | _ => [])

/-- The tick values of all legend axes under the root. -/
def Page.legendTicks (page : Page) : List ℚ :=
  page.svg.flatMap (fun n => match n with
    | Node.legend _ ts => ts
    | _ => [])

/-- The tick values of all x-axes under the root. -/
def Page.xTicks (page : Page) : List Int :=
  page.svg.flatMap (fun n => match n with
    | Node.xAxis ts => ts
    | _ => [])

/-! ## Sample data and the quantities the properties are stated with -/

/-- The sample dataset with `min = -5` and `max = 5`. -/
def sampleDataset : Dataset :=
  { baseTemperature := 0,
    monthlyVariance := [{ year := 2000, month := 1, variance := -5 },
                        { year := 2000, month := 2, variance := 5 }] }

/-- The ten evenly spaced breakpoints `lo + k * (hi - lo) / 10`, `k = 0..9`. -/
def tenths (lo hi : ℚ) : List ℚ :=
  (List.range 10).map (fun (k : Nat) => lo + (k : ℚ) * (hi - lo) / 10)

/-- The distinct years of the dataset in order of first appearance. -/
def distinctYears (dataset : Dataset) : List Int :=
  d3.firstAppearance (dataset.monthlyVariance.map (fun d => d.year))

/-- The four geometry attributes of a `rect`. -/
structure Box where
  x : Option ℚ
  y : Option ℚ
  width : ℚ
  height : ℚ
  deriving DecidableEq

/-- The local `xScale` of `buildHeatMap` in binary64. -/
def xScale64 (dataset : Dataset) : d3.BandScale :=
  d3.scaleBand64 (dataset.monthlyVariance.map (fun d => d.year)) 1 width

/-- The local `yScale` of `buildHeatMap` in binary64. -/
def yScale64 : d3.BandScale :=
  d3.scaleBand64 [0, 1, 2, 3, 4, 5, 6, 7, 8, 9, 10, 11] 0 (height - margin.bottom)

/-- The `x`, `y`, `width` and `height` attributes of the rectangle appended for one
observation, as numbers of binary64. -/
def cellBox64 (dataset : Dataset) (d : Observation) : Box :=
  { x := (xScale64 dataset).apply d.year,
    y := yScale64.apply (d.month - 1),
    width := (xScale64 dataset).bandwidth,
    height := yScale64.bandwidth }

/-- A dataset of two observations of one year, in April and in May. -/
def adjacentMonthsDataset : Dataset :=
  { baseTemperature := 0,
    monthlyVariance := [{ year := 2000, month := 4, variance := 0 },
                        { year := 2000, month := 5, variance := 1 }] }

/-- The cells one call of `buildHeatMap` appends to a page: those past the cells the
page held before the call. -/
def cellsAdded (dataset : Dataset) (page : Page) : List Cell :=
  (buildHeatMap dataset page).cells.drop page.cells.length

/-- The legend rectangles one call of `buildHeatMap` appends to a page. -/
def legendBlocksAdded (dataset : Dataset) (page : Page) : List Block :=
  (buildHeatMap dataset page).legendBlocks.drop page.legendBlocks.length

end HeatMap

/-! ## Facts about the d3 functions -/

namespace d3

/-- The bisection loop keeps its invariant: everything left of the result is `≤ x`,
everything from the result up to the initial `hi` is `> x`. -/
theorem bisectLoop_spec (a : List ℚ) (x : ℚ) (n : Nat) (hn : n ≤ a.length) (hs : Ascending a) :
    ∀ fuel lo hi, lo ≤ hi → hi ≤ n → hi - lo ≤ fuel →
      (∀ j, j < lo → a.getD j 0 ≤ x) → (∀ j, hi ≤ j → j < n → x < a.getD j 0) →
      lo ≤ bisectLoop a x fuel lo hi ∧ bisectLoop a x fuel lo hi ≤ hi ∧
      (∀ j, j < bisectLoop a x fuel lo hi → a.getD j 0 ≤ x) ∧
      (∀ j, bisectLoop a x fuel lo hi ≤ j → j < n → x < a.getD j 0) := by
  intro fuel
  induction fuel with
  | zero =>
    intro lo hi h1 _ h3 hl hr
    have : lo = hi := by omega
    subst this
    simp only [bisectLoop]
    exact ⟨le_refl _, le_refl _, hl, hr⟩
  | succ k ih =>
    intro lo hi h1 h2 h3 hl hr
    simp only [bisectLoop]
    by_cases hlt : lo < hi
    · rw [if_pos hlt]
      have hm1 : lo ≤ (lo + hi) / 2 := by omega
      have hm2 : (lo + hi) / 2 < hi := by omega
      by_cases hc : a.getD ((lo + hi) / 2) 0 > x
      · simp only [hc, if_true]
        have := ih lo ((lo + hi) / 2) hm1 (by omega) (by omega) hl (by
          intro j hj1 hj2
          exact lt_of_lt_of_le hc (hs _ _ hj1 (by omega)))
        exact ⟨this.1, by omega, this.2.2.1, this.2.2.2⟩
      · simp only [hc, if_false]
        have := ih ((lo + hi) / 2 + 1) hi (by omega) h2 (by omega) (by
          intro j hj
          exact le_trans (hs j _ (by omega) (by omega)) (not_lt.mp hc)) hr
        exact ⟨by omega, this.2.1, this.2.2.1, this.2.2.2⟩
    · rw [if_neg hlt]
      have : lo = hi := by omega
      subst this
      exact ⟨le_refl _, le_refl _, hl, hr⟩

/-- On an ascending array, `bisectRight` over the first `n` entries returns the split
point: entries before it are `≤ x`, entries from it on are `> x`. -/
theorem bisectRight_spec (a : List ℚ) (x : ℚ) (n : Nat) (hn : n ≤ a.length) (hs : Ascending a) :
    bisectRight a x 0 n ≤ n ∧
    (∀ j, j < bisectRight a x 0 n → a.getD j 0 ≤ x) ∧
    (∀ j, bisectRight a x 0 n ≤ j → j < n → x < a.getD j 0) := by
  have := bisectLoop_spec a x n hn hs (n - 0) 0 n (Nat.zero_le _) (le_refl _) (le_refl _)
    (by intro j hj; omega) (by intro j h1 h2; omega)
  exact ⟨this.2.1, this.2.2.1, this.2.2.2⟩

/-- On an ascending array, `bisectRight` over the whole array is the index of the first
entry greater than `x`, or the length when there is none. -/
theorem bisectRight_eq_findIdx (a : List ℚ) (x : ℚ) (hs : Ascending a) :
    bisectRight a x 0 a.length = a.findIdx (fun b => decide (x < b)) := by
  obtain ⟨h1, h2, h3⟩ := bisectRight_spec a x a.length (le_refl _) hs
  rcases Nat.lt_or_ge (bisectRight a x 0 a.length) a.length with hlt | hge
  · symm
    rw [List.findIdx_eq hlt]
    constructor
    · have := h3 _ (le_refl _) hlt
      rw [List.getD_eq_getElem _ _ hlt] at this
      simpa using this
    · intro j hj
      have := h2 j hj
      rw [List.getD_eq_getElem _ _ (by omega)] at this
      simpa using this
  · have he : bisectRight a x 0 a.length = a.length := by omega
    rw [he]
    symm
    rw [List.findIdx_eq_length]
    intro b hb
    obtain ⟨j, hj, rfl⟩ := List.getElem_of_mem hb
    have := h2 j (by omega)
    rw [List.getD_eq_getElem _ _ hj] at this
    simpa using this

/-- With a positive span, `d3.range(lo, hi, (hi - lo) / 10)` has exactly ten entries
`lo + i * (hi - lo) / 10`, `i = 0..9`. -/
theorem range_tenths (lo hi : ℚ) (h : lo < hi) :
    range lo hi ((hi - lo) / ((10 : Nat) : ℚ)) =
      (List.range 10).map (fun (i : Nat) => lo + (i : ℚ) * (hi - lo) / 10) := by
  have hpos : hi - lo ≠ 0 := by
    have : 0 < hi - lo := sub_pos.mpr h
    exact ne_of_gt this
  have hq : (hi - lo) / ((hi - lo) / ((10 : Nat) : ℚ)) = ((10 : Int) : ℚ) := by
    field_simp
  unfold range
  rw [hq, Int.ceil_intCast]
  simp only [Int.toNat_ofNat]
  apply List.map_congr_left
  intro i _
  push_cast
  ring

/-- The scan of `d3.min` returns an element that is below every element. -/
theorem min_scan (vs : List ℚ) : ∀ v : ℚ,
    (vs.foldl (fun m x => if m > x then x else m) v ∈ v :: vs) ∧
    (∀ t ∈ v :: vs, vs.foldl (fun m x => if m > x then x else m) v ≤ t) := by
  induction vs with
  | nil => intro v; simp
  | cons w ws ih =>
    intro v
    simp only [List.foldl_cons]
    obtain ⟨h1, h2⟩ := ih (if v > w then w else v)
    constructor
    · rcases List.mem_cons.mp h1 with h | h
      · rw [h]
        split_ifs <;> simp
      · simp [h]
    · intro t ht
      have hm := h2 _ (List.mem_cons_self _ _)
      rcases List.mem_cons.mp ht with h | h
      · rw [h]
        refine le_trans hm ?_
        split_ifs with hc
        · exact le_of_lt hc
        · exact le_refl _
      · rcases List.mem_cons.mp h with h | h
        · rw [h]
          refine le_trans hm ?_
          split_ifs with hc
          · exact le_refl _
          · exact not_lt.mp hc
        · exact h2 t (List.mem_cons_of_mem _ h)

/-- The scan of `d3.max` returns an element that is above every element. -/
theorem max_scan (vs : List ℚ) : ∀ v : ℚ,
    (vs.foldl (fun m x => if m < x then x else m) v ∈ v :: vs) ∧
    (∀ t ∈ v :: vs, t ≤ vs.foldl (fun m x => if m < x then x else m) v) := by
  induction vs with
  | nil => intro v; simp
  | cons w ws ih =>
    intro v
    simp only [List.foldl_cons]
    obtain ⟨h1, h2⟩ := ih (if v < w then w else v)
    constructor
    · rcases List.mem_cons.mp h1 with h | h
      · rw [h]
        split_ifs <;> simp
      · simp [h]
    · intro t ht
      have hm := h2 _ (List.mem_cons_self _ _)
      rcases List.mem_cons.mp ht with h | h
      · rw [h]
        refine le_trans ?_ hm
        split_ifs with hc
        · exact le_of_lt hc
        · exact le_refl _
      · rcases List.mem_cons.mp h with h | h
        · rw [h]
          refine le_trans ?_ hm
          split_ifs with hc
          · exact le_refl _
          · exact not_lt.mp hc
        · exact h2 t (List.mem_cons_of_mem _ h)

/-- What `d3.min` returns is an element of the array and a lower bound of it. -/
theorem min_spec (l : List ℚ) (lo : ℚ) (h : min l = some lo) : lo ∈ l ∧ ∀ t ∈ l, lo ≤ t := by
  cases l with
  | nil => simp [min] at h
  | cons v vs =>
    simp only [min, Option.some.injEq] at h
    rw [← h]
    exact min_scan vs v

/-- What `d3.max` returns is an element of the array and an upper bound of it. -/
theorem max_spec (l : List ℚ) (hi : ℚ) (h : max l = some hi) : hi ∈ l ∧ ∀ t ∈ l, t ≤ hi := by
  cases l with
  | nil => simp [max] at h
  | cons v vs =>
    simp only [max, Option.some.injEq] at h
    rw [← h]
    exact max_scan vs v

/-- The distinct values are the values of the list. -/
theorem mem_firstAppearance (xs : List Int) (y : Int) : y ∈ firstAppearance xs ↔ y ∈ xs := by
  induction xs with
  | nil => simp [firstAppearance]
  | cons x xs ih =>
    simp only [firstAppearance, List.mem_cons, List.mem_filter, ih, decide_eq_true_eq]
    by_cases h : y = x <;> simp [h]

/-- No value is listed twice among the distinct values. -/
theorem nodup_firstAppearance (xs : List Int) : (firstAppearance xs).Nodup := by
  induction xs with
  | nil => simp [firstAppearance]
  | cons x xs ih =>
    simp only [firstAppearance, List.nodup_cons, List.mem_filter, decide_eq_true_eq]
    exact ⟨fun h => h.2 rfl, ih.filter _⟩

/-- The push loop of the ordinal domain, started from an index that already holds `acc`. -/
theorem ordinalDomain_fold (xs : List Int) : ∀ acc : List Int,
    xs.foldl (fun domain d => if d ∈ domain then domain else domain ++ [d]) acc =
      acc ++ (firstAppearance xs).filter (fun y => decide (y ∉ acc)) := by
  induction xs with
  | nil => intro acc; simp [firstAppearance]
  | cons x xs ih =>
    intro acc
    simp only [List.foldl_cons, firstAppearance]
    by_cases hx : x ∈ acc
    · rw [if_pos hx, ih acc, List.filter_cons]
      simp only [hx, not_true_eq_false, decide_False, Bool.false_eq_true, if_false,
        List.filter_filter]
      congr 1
      apply List.filter_congr
      intro y _
      by_cases hy : y ∈ acc
      · simp [hy]
      · have : y ≠ x := fun e => hy (e ▸ hx)
        simp [hy, this]
    · rw [if_neg hx, ih (acc ++ [x]), List.filter_cons]
      simp only [hx, not_false_eq_true, decide_True, if_true, List.filter_filter,
        List.append_assoc, List.singleton_append]
      congr 2
      apply List.filter_congr
      intro y _
      by_cases hy : y ∈ acc <;> by_cases hyx : y = x <;> simp [hy, hyx]

/-- The ordinal domain is the list of distinct values in order of first appearance. -/
theorem ordinalDomain_eq (xs : List Int) : ordinalDomain xs = firstAppearance xs := by
  unfold ordinalDomain
  rw [ordinalDomain_fold xs []]
  simp

/-- The domain of a band scale is the list of distinct values in first-appearance order. -/
theorem scaleBand_domain (values : List Int) (r0 r1 : ℚ) :
    (scaleBand values r0 r1).domain = firstAppearance values := by
  simp [scaleBand, ordinalDomain_eq]

/-- The bandwidth of a band scale over an increasing range and a non-empty domain. -/
theorem scaleBand_bandwidth (values : List Int) (r0 r1 : ℚ) (h : r0 ≤ r1)
    (hne : values ≠ []) :
    (scaleBand values r0 r1).bandwidth = (r1 - r0) / ((firstAppearance values).length : ℚ) := by
  have hlen : 1 ≤ (firstAppearance values).length := by
    cases values with
    | nil => exact absurd rfl hne
    | cons x xs => simp [firstAppearance]
  have hq : (1 : ℚ) ≤ ((firstAppearance values).length : ℚ) := by exact_mod_cast hlen
  simp [scaleBand, ordinalDomain_eq, not_lt.mpr h, max_eq_right hq]

/-- A band scale over an increasing range sends the value at index `i` of its domain to
`r0 + i * (r1 - r0) / n`, where `n` is the size of the domain. -/
theorem scaleBand_apply (values : List Int) (r0 r1 : ℚ) (h : r0 ≤ r1) (d : Int)
    (hd : d ∈ values) :
    (scaleBand values r0 r1).apply d =
      some (r0 + ((firstAppearance values).indexOf d : ℚ) * (r1 - r0) /
        ((firstAppearance values).length : ℚ)) := by
  have hmem : d ∈ firstAppearance values := (mem_firstAppearance values d).mpr hd
  have hidx : (firstAppearance values).indexOf d < (firstAppearance values).length :=
    List.indexOf_lt_length.mpr hmem
  have hlen : 1 ≤ (firstAppearance values).length := by omega
  have hq : (1 : ℚ) ≤ ((firstAppearance values).length : ℚ) := by exact_mod_cast hlen
  have hne : ((firstAppearance values).length : ℚ) ≠ 0 := by positivity
  simp only [BandScale.apply, scaleBand, ordinalDomain_eq, not_lt.mpr h, decide_False,
    Bool.false_eq_true, if_false, hmem, if_true, List.length_map, List.length_range,
    Nat.mod_eq_of_lt hidx, List.get?_eq_getElem?, List.getElem?_map,
    List.getElem?_range hidx, Option.map_some', sub_zero, zero_mul, add_zero,
    max_eq_right hq, Option.some.injEq]
  field_simp
  ring

/-! ## The band scale in binary64 -/

/-- The exponent of a number between two consecutive powers of two. -/
theorem log_eq (q : ℚ) (k : Int) (hlo : (2 : ℚ) ^ k ≤ |q|) (hhi : |q| < (2 : ℚ) ^ (k + 1)) :
    Int.log 2 |q| = k := by
  have hpos : 0 < |q| := lt_of_lt_of_le (by positivity) hlo
  apply le_antisymm
  · have := (Int.lt_zpow_iff_log_lt (b := 2) (by norm_num) hpos (x := k + 1)).mp
      (by exact_mod_cast hhi)
    omega
  · exact (Int.zpow_le_iff_le_log (b := 2) (by norm_num) hpos).mp (by exact_mod_cast hlo)

/-- Rounding once the integer part is known. -/
theorem roundHalfEven_of_floor (x : ℚ) (f : Int) (h1 : (f : ℚ) ≤ x) (h2 : x < (f : ℚ) + 1) :
    roundHalfEven x =
      if x - (f : ℚ) < 1 / 2 then f
      else if 1 / 2 < x - (f : ℚ) then f + 1
      else if f % 2 = 0 then f else f + 1 := by
  have hf : ⌊x⌋ = f := Int.floor_eq_iff.mpr ⟨h1, h2⟩
  unfold roundHalfEven
  rw [hf]

/-- The binary64 value of `q` once its exponent `k` and the integer part `f` of its
scaled significand are known. -/
theorem binary64_of (q : ℚ) (k f : Int) (hlo : (2 : ℚ) ^ k ≤ |q|)
    (hhi : |q| < (2 : ℚ) ^ (k + 1)) (h1 : (f : ℚ) ≤ q / (2 : ℚ) ^ (k - 52))
    (h2 : q / (2 : ℚ) ^ (k - 52) < (f : ℚ) + 1) :
    binary64 q =
      ((if q / (2 : ℚ) ^ (k - 52) - (f : ℚ) < 1 / 2 then f
        else if 1 / 2 < q / (2 : ℚ) ^ (k - 52) - (f : ℚ) then f + 1
        else if f % 2 = 0 then f else f + 1 : Int) : ℚ) * (2 : ℚ) ^ (k - 52) := by
  have hq : q ≠ 0 := by
    intro h
    rw [h, abs_zero] at hlo
    exact absurd hlo (not_le.mpr (by positivity))
  unfold binary64
  rw [if_neg hq, log_eq q k hlo hhi, roundHalfEven_of_floor _ f h1 h2]

/-- Zero is a binary64 number. -/
theorem binary64_zero : binary64 0 = 0 := by
  simp [binary64]

/-- The binary64 value nearest to `1`. -/
theorem binary64_one : binary64 (1) = 1 := by
  rw [binary64_of (1) (0) 4503599627370496 (by norm_num [abs_of_pos]) (by norm_num [abs_of_pos])
    (by norm_num) (by norm_num)]
  norm_num

/-- The binary64 value nearest to `1339`. -/
theorem binary64_span_x : binary64 (1339) = 1339 := by
  rw [binary64_of (1339) (10) 5888984278368256 (by norm_num [abs_of_pos]) (by norm_num [abs_of_pos])
    (by norm_num) (by norm_num)]
  norm_num

/-- The binary64 value nearest to `410`. -/
theorem binary64_span_y : binary64 (410) = 410 := by
  rw [binary64_of (410) (8) 7212796278210560 (by norm_num [abs_of_pos]) (by norm_num [abs_of_pos])
    (by norm_num) (by norm_num)]
  norm_num

/-- The binary64 value nearest to `205 / 6`. -/
theorem binary64_step_y : binary64 (205 / 6) = 4808530852140373 / 140737488355328 := by
  rw [binary64_of (205 / 6) (5) 4808530852140373 (by norm_num [abs_of_pos]) (by norm_num [abs_of_pos])
    (by norm_num) (by norm_num)]
  norm_num

/-- The binary64 value nearest to `14425592556421119 / 35184372088832`. -/
theorem binary64_step_y_times_12 : binary64 (14425592556421119 / 35184372088832) = 410 := by
  rw [binary64_of (14425592556421119 / 35184372088832) (8) 7212796278210559 (by norm_num [abs_of_pos]) (by norm_num [abs_of_pos])
    (by norm_num) (by norm_num)]
  norm_num

/-- The binary64 value nearest to `4808530852140373 / 140737488355328`. -/
theorem binary64_step_y_id : binary64 (4808530852140373 / 140737488355328) = 4808530852140373 / 140737488355328 := by
  rw [binary64_of (4808530852140373 / 140737488355328) (5) 4808530852140373 (by norm_num [abs_of_pos]) (by norm_num [abs_of_pos])
    (by norm_num) (by norm_num)]
  norm_num

/-- The binary64 value nearest to `14425592556421119 / 140737488355328`. -/
theorem binary64_step_y_times_3 : binary64 (14425592556421119 / 140737488355328) = 205 / 2 := by
  rw [binary64_of (14425592556421119 / 140737488355328) (6) 7212796278210559 (by norm_num [abs_of_pos]) (by norm_num [abs_of_pos])
    (by norm_num) (by norm_num)]
  norm_num

/-- The binary64 value nearest to `205 / 2`. -/
theorem binary64_row_3 : binary64 (205 / 2) = 205 / 2 := by
  rw [binary64_of (205 / 2) (6) 7212796278210560 (by norm_num [abs_of_pos]) (by norm_num [abs_of_pos])
    (by norm_num) (by norm_num)]
  norm_num

/-- The binary64 value nearest to `4808530852140373 / 35184372088832`. -/
theorem binary64_row_4 : binary64 (4808530852140373 / 35184372088832) = 4808530852140373 / 35184372088832 := by
  rw [binary64_of (4808530852140373 / 35184372088832) (7) 4808530852140373 (by norm_num [abs_of_pos]) (by norm_num [abs_of_pos])
    (by norm_num) (by norm_num)]
  norm_num

/-- The binary64 band scale over an increasing range, from the value of each step of
`rescale()`. -/
theorem scaleBand64_eq (values dom : List Int) (r0 r1 span step prod diff half start bw : ℚ)
    (h : r0 ≤ r1) (hdom : ordinalDomain values = dom) (hn : 1 ≤ dom.length)
    (hspan : binary64 (r1 - r0) = span) (hstep : binary64 (span / (dom.length : ℚ)) = step)
    (hprod : binary64 (step * (dom.length : ℚ)) = prod)
    (hdiff : binary64 (span - prod) = diff) (hhalf : binary64 (diff * (1 / 2)) = half)
    (hstart : binary64 (r0 + half) = start) (hbw : binary64 (step * 1) = bw) :
    scaleBand64 values r0 r1 =
      { domain := dom,
        values := (List.range dom.length).map
          (fun (i : Nat) => binary64 (start + binary64 (step * (i : ℚ)))),
        bandwidth := bw } := by
  have hq : (1 : ℚ) ≤ (dom.length : ℚ) := by exact_mod_cast hn
  subst hdom hspan hstep hprod hdiff hhalf hstart hbw
  simp only [scaleBand64, not_lt.mpr h, decide_False, Bool.false_eq_true, if_false, sub_zero,
    zero_mul, add_zero, max_eq_right hq]

end d3

namespace HeatMap

/-! ## What one call of `buildHeatMap` adds to the page -/

/-- The cells on the page after a call: those before it, then one per observation. -/
theorem cells_buildHeatMap (dataset : Dataset) (page : Page) :
    (buildHeatMap dataset page).cells =
      page.cells ++ dataset.monthlyVariance.map (cell page.schemeRdYlBu11.reverse dataset) := by
  simp [buildHeatMap, Page.cells]

/-- The legend rectangles on the page after a call. -/
theorem legendBlocks_buildHeatMap (dataset : Dataset) (page : Page) :
    (buildHeatMap dataset page).legendBlocks =
      page.legendBlocks ++ legendBlocks page.schemeRdYlBu11.reverse dataset := by
  simp [buildHeatMap, Page.legendBlocks]

/-- The legend tick values on the page after a call: the domain without its first entry. -/
theorem legendTicks_buildHeatMap (dataset : Dataset) (page : Page) :
    (buildHeatMap dataset page).legendTicks =
      page.legendTicks ++ (colorDomain dataset).drop 1 := by
  simp [buildHeatMap, Page.legendTicks]

/-- The x-axis tick values on the page after a call. -/
theorem xTicks_buildHeatMap (dataset : Dataset) (page : Page) :
    (buildHeatMap dataset page).xTicks = page.xTicks ++ xAxisTickValues dataset := by
  simp [buildHeatMap, Page.xTicks]

/-- C1. One call of `buildHeatMap` adds, after the cells already on the page, exactly
one cell per observation, in dataset order, with `data-month = month - 1`,
`data-year = year` and `data-temp = baseTemperature + variance` (the exact sum); and the
cell of an observation whose month is in 1..12 has its `data-month` in 0..11. -/
theorem C1_cell_data_attributes (dataset : Dataset) (page : Page) :
    (buildHeatMap dataset page).cells.map (fun c => (c.dataMonth, c.dataYear, c.dataTemp)) =
      page.cells.map (fun c => (c.dataMonth, c.dataYear, c.dataTemp)) ++
        dataset.monthlyVariance.map
          (fun d => (d.month - 1, d.year, dataset.baseTemperature + d.variance)) ∧
    (∀ (i : Nat) (d : Observation), dataset.monthlyVariance.get? i = some d →
      1 ≤ d.month → d.month ≤ 12 →
      ∃ c, (buildHeatMap dataset page).cells.get? (page.cells.length + i) = some c ∧
        c.dataMonth = d.month - 1 ∧ 0 ≤ c.dataMonth ∧ c.dataMonth ≤ 11) := by
  constructor
  · rw [cells_buildHeatMap]
    simp [cell, Function.comp_def]
  · intro i d hd h1 h2
    refine ⟨cell page.schemeRdYlBu11.reverse dataset d, ?_, rfl, ?_, ?_⟩
    · rw [cells_buildHeatMap]
      simp only [List.get?_eq_getElem?] at hd ⊢
      rw [List.getElem?_append_right (by omega)]
      simp [hd]
    · show 0 ≤ d.month - 1
      omega
    · show d.month - 1 ≤ 11
      omega

/-- C1 on the sample dataset: the cell of its second observation, month 2. -/
theorem C1_cell_data_attributes_witness :
    ∃ c, (buildHeatMap sampleDataset moduleLoad).cells.get? (moduleLoad.cells.length + 1) = some c ∧
      c.dataMonth = (2 : Int) - 1 ∧ 0 ≤ c.dataMonth ∧ c.dataMonth ≤ 11 :=
  (C1_cell_data_attributes sampleDataset moduleLoad).2 1
    { year := 2000, month := 2, variance := 5 } rfl (by decide) (by decide)

/-- C4. The tick values of the x-axis drawn by the page's call of `buildHeatMap` are
exactly the observation years divisible by 10, each once. -/
theorem C4_x_axis_ticks (dataset : Dataset) :
    (∀ y : Int, y ∈ (buildHeatMap dataset moduleLoad).xTicks ↔
      (∃ d ∈ dataset.monthlyVariance, d.year = y) ∧ (10 : Int) ∣ y) ∧
    (buildHeatMap dataset moduleLoad).xTicks.Nodup := by
  have hx : (buildHeatMap dataset moduleLoad).xTicks = xAxisTickValues dataset := by
    rw [xTicks_buildHeatMap]
    simp [moduleLoad, Page.xTicks]
  rw [hx]
  unfold xAxisTickValues xScale
  rw [d3.scaleBand_domain]
  constructor
  · intro y
    simp only [List.mem_filter, d3.mem_firstAppearance, List.mem_map, beq_iff_eq,
      Int.dvd_iff_tmod_eq_zero]
  · exact (d3.nodup_firstAppearance _).filter _

/-- C7 (as amended). The fetch callback leaves the page equal to the outcome of
`buildHeatMap` exactly when the fetch reported no error; on an error the page is left
as it was, so that after the module body and a failed fetch the drawing root holds the
title and nothing else: no cell, no axis, no description, no legend. -/
theorem C7_fetch_callback (error : Option FetchError) (dataset : Dataset) (page : Page) :
    (fetchCallback error dataset page = buildHeatMap dataset page ↔ error = none) ∧
    (error ≠ none → fetchCallback error dataset page = page) ∧
    (error ≠ none → (fetchCallback error dataset moduleLoad).svg =
        [Node.title (width / 2) (0 - margin.top / 2) "Monthly Global Land-Surface Temperature"] ∧
      (fetchCallback error dataset moduleLoad).cells = [] ∧
      (fetchCallback error dataset moduleLoad).legendBlocks = [] ∧
      (fetchCallback error dataset moduleLoad).xTicks = [] ∧
      (fetchCallback error dataset moduleLoad).legendTicks = []) := by
  have hne : buildHeatMap dataset page ≠ page := by
    intro h
    have := congrArg (fun p => p.svg.length) h
    simp [buildHeatMap] at this
  cases error with
  | none => simp [fetchCallback]
  | some e =>
    refine ⟨?_, fun _ => rfl, fun _ => ⟨rfl, rfl, rfl, rfl, rfl⟩⟩
    simp only [fetchCallback]
    constructor
    · intro h
      exact absurd h.symm hne
    · intro h
      exact absurd h (by simp)

/-- C7 on a fetch that failed with status 404. -/
theorem C7_fetch_callback_witness :
    fetchCallback (some { status := 404 }) sampleDataset moduleLoad = moduleLoad ∧
    (fetchCallback (some { status := 404 }) sampleDataset moduleLoad).svg =
      [Node.title (width / 2) (0 - margin.top / 2) "Monthly Global Land-Surface Temperature"] :=
  ⟨(C7_fetch_callback (some { status := 404 }) sampleDataset moduleLoad).2.1 (by simp),
   ((C7_fetch_callback (some { status := 404 }) sampleDataset moduleLoad).2.2 (by simp)).1⟩

/-- C7 as stated fails: after a failed fetch the set of render instructions is not
empty, the title drawn by the module body is there. -/
theorem C7_counterexample :
    (fetchCallback (some { status := 404 }) sampleDataset moduleLoad).svg ≠ [] := by
  simp [fetchCallback, moduleLoad]

/-! ## The colour thresholds -/

/-- There are ten breakpoints. -/
theorem tenths_length (lo hi : ℚ) : (tenths lo hi).length = 10 := by
  simp [tenths]

/-- Breakpoint `k` is `lo + k * (hi - lo) / 10`. -/
theorem tenths_getD (lo hi : ℚ) (k : Nat) (hk : k < 10) :
    (tenths lo hi).getD k 0 = lo + (k : ℚ) * (hi - lo) / 10 := by
  rw [List.getD_eq_getElem _ _ (by simpa [tenths] using hk)]
  simp [tenths]

/-- The breakpoints ascend when `lo < hi`. -/
theorem tenths_ascending (lo hi : ℚ) (h : lo < hi) : d3.Ascending (tenths lo hi) := by
  intro i j hij hj
  rw [tenths_length] at hj
  rw [tenths_getD lo hi i (by omega), tenths_getD lo hi j hj]
  have hd : 0 < hi - lo := sub_pos.mpr h
  have hc : (i : ℚ) ≤ (j : ℚ) := by exact_mod_cast hij
  have : (i : ℚ) * (hi - lo) ≤ (j : ℚ) * (hi - lo) := mul_le_mul_of_nonneg_right hc (le_of_lt hd)
  linarith

/-- With `min < max`, the domain given to `colorScale` is the ten breakpoints. -/
theorem colorDomain_eq (dataset : Dataset) (lo hi : ℚ) (hmin : min dataset = some lo)
    (hmax : max dataset = some hi) (h : lo < hi) : colorDomain dataset = tenths lo hi := by
  unfold colorDomain
  rw [hmin, hmax]
  exact d3.range_tenths lo hi h

/-- The bucket of a value: if `x` is at or above breakpoint `k` and below breakpoint
`k + 1` (when there is one), the bisection over the ten breakpoints returns `k + 1`. -/
theorem bisect_tenths (lo hi : ℚ) (h : lo < hi) (x : ℚ) (k : Nat) (hk : k < 10)
    (h1 : lo + (k : ℚ) * (hi - lo) / 10 ≤ x)
    (h2 : k < 9 → x < lo + ((k + 1 : Nat) : ℚ) * (hi - lo) / 10) :
    d3.bisectRight (tenths lo hi) x 0 10 = k + 1 := by
  obtain ⟨hr, hl, hu⟩ := d3.bisectRight_spec (tenths lo hi) x 10
    (by rw [tenths_length]) (tenths_ascending lo hi h)
  have hlow : k < d3.bisectRight (tenths lo hi) x 0 10 := by
    by_contra hc
    have := hu k (by omega) hk
    rw [tenths_getD lo hi k hk] at this
    linarith
  have hup : d3.bisectRight (tenths lo hi) x 0 10 ≤ k + 1 := by
    by_contra hc
    have hk9 : k < 9 := by omega
    have := hl (k + 1) (by omega)
    rw [tenths_getD lo hi (k + 1) (by omega)] at this
    have := h2 hk9
    linarith
  omega

/-- Every value at or above `lo` has a bucket among the ten breakpoints. -/
theorem exists_bucket (lo hi : ℚ) (h : lo < hi) (x : ℚ) (hx : lo ≤ x) :
    ∃ k : Nat, k < 10 ∧ lo + (k : ℚ) * (hi - lo) / 10 ≤ x ∧
      (k < 9 → x < lo + ((k + 1 : Nat) : ℚ) * (hi - lo) / 10) := by
  have hsp := d3.bisectRight_spec (tenths lo hi) x 10
    (by rw [tenths_length]) (tenths_ascending lo hi h)
  obtain ⟨hr, hl, hu⟩ := hsp
  have hpos : 0 < d3.bisectRight (tenths lo hi) x 0 10 := by
    by_contra hc
    have := hu 0 (by omega) (by omega)
    rw [tenths_getD lo hi 0 (by omega)] at this
    simp at this
    linarith
  refine ⟨d3.bisectRight (tenths lo hi) x 0 10 - 1, by omega, ?_, ?_⟩
  · have := hl (d3.bisectRight (tenths lo hi) x 0 10 - 1) (by omega)
    rwa [tenths_getD lo hi _ (by omega)] at this
  · intro h9
    have := hu (d3.bisectRight (tenths lo hi) x 0 10 - 1 + 1) (by omega) (by omega)
    rwa [tenths_getD lo hi _ (by omega)] at this

/-- With `min < max` and an 11-entry range, `colorScale` looks the bisection index up
in the range. -/
theorem colorScale_eq (range : List String) (hr : range.length = 11) (dataset : Dataset)
    (lo hi : ℚ) (hmin : min dataset = some lo) (hmax : max dataset = some hi) (h : lo < hi)
    (x : ℚ) :
    colorScale range dataset x = range.get? (d3.bisectRight (tenths lo hi) x 0 10) := by
  unfold colorScale d3.scaleThreshold
  rw [colorDomain_eq dataset lo hi hmin hmax h, tenths_length, hr]
  rfl

/-- Every temperature of the dataset lies between `min` and `max`. -/
theorem temperature_bounds (dataset : Dataset) (lo hi : ℚ) (hmin : min dataset = some lo)
    (hmax : max dataset = some hi) (d : Observation) (hd : d ∈ dataset.monthlyVariance) :
    lo ≤ dataset.baseTemperature + d.variance ∧ dataset.baseTemperature + d.variance ≤ hi := by
  have hm : dataset.baseTemperature + d.variance ∈ temperatures dataset :=
    List.mem_map.mpr ⟨d, hd, rfl⟩
  exact ⟨(d3.min_spec _ lo hmin).2 _ hm, (d3.max_spec _ hi hmax).2 _ hm⟩

/-- The sample dataset has `min = -5`. -/
theorem min_sampleDataset : min sampleDataset = some (-5) := by
  simp [min, temperatures, sampleDataset, d3.min]

/-- The sample dataset has `max = 5`. -/
theorem max_sampleDataset : max sampleDataset = some 5 := by
  simp [max, temperatures, sampleDataset, d3.max]

/-- The breakpoints of the sample dataset. -/
theorem tenths_sample : tenths (-5) 5 = [-5, -4, -3, -2, -1, 0, 1, 2, 3, 4] := by
  simp [tenths, List.range, List.range.loop]
  norm_num

/-- The shipped ramp reversed: blue, through yellow, to red. -/
theorem reverse_schemeRdYlBu11 : d3.schemeRdYlBu11.reverse =
    ["#313695", "#4575b4", "#74add1", "#abd9e9", "#e0f3f8", "#ffffbf",
     "#fee090", "#fdae61", "#f46d43", "#d73027", "#a50026"] := by
  rfl

/-- The legend rectangles over the ten breakpoints sit at `30 * i`, `i = 0..9`, and are
30 by 30. -/
theorem legendBlocks_geometry (range : List String) (dataset : Dataset) (lo hi : ℚ)
    (hmin : min dataset = some lo) (hmax : max dataset = some hi) (h : lo < hi) :
    (legendBlocks range dataset).map (fun b => (b.x, b.width, b.height)) =
      (List.range 10).map (fun (i : Nat) => ((30 : ℚ) * (i : ℚ), (30 : ℚ), (30 : ℚ))) := by
  unfold legendBlocks
  rw [colorDomain_eq dataset lo hi hmin hmax h]
  simp [tenths, List.range, List.range.loop, List.enum, List.enumFrom, blockSize]
  norm_num

/-- The fill of legend rectangle `k` is entry `k + 1` of the range. -/
theorem legendBlocks_fill (range : List String) (hr : range.length = 11) (dataset : Dataset)
    (lo hi : ℚ) (hmin : min dataset = some lo) (hmax : max dataset = some hi) (h : lo < hi) :
    (legendBlocks range dataset).map (fun b => b.fill) =
      (List.range 10).map (fun (k : Nat) => range.get? (k + 1)) := by
  have hd : 0 < hi - lo := sub_pos.mpr h
  have key : ∀ k : Nat, k < 10 →
      colorScale range dataset (lo + (k : ℚ) * (hi - lo) / 10) = range.get? (k + 1) := by
    intro k hk
    rw [colorScale_eq range hr dataset lo hi hmin hmax h,
      bisect_tenths lo hi h _ k hk (le_refl _) (by
        intro _
        push_cast
        linarith)]
  apply List.ext_getElem?
  intro n
  unfold legendBlocks
  rw [colorDomain_eq dataset lo hi hmin hmax h]
  by_cases hn : n < 10
  · simp [tenths, hn, List.getElem?_range hn, List.enum, List.getElem?_enumFrom]
    have := key n hn
    simpa using this
  · have hnone : (List.range 10)[n]? = none := by
      rw [List.getElem?_eq_none_iff]
      simpa using hn
    simp [tenths, List.enum, List.getElem?_enumFrom, hnone]

/-- Legend rectangle `k` over the ten breakpoints: where it is and what fills it. -/
theorem legendBlock_at (range : List String) (hr : range.length = 11) (dataset : Dataset)
    (lo hi : ℚ) (hmin : min dataset = some lo) (hmax : max dataset = some hi) (h : lo < hi)
    (k : Nat) (hk : k < 10) :
    ∃ b, (legendBlocks range dataset).get? k = some b ∧ b.x = 30 * (k : ℚ) ∧
      b.width = 30 ∧ b.height = 30 ∧ b.fill = range.get? (k + 1) := by
  have hg := congrArg (fun l => l.get? k)
    (legendBlocks_geometry range dataset lo hi hmin hmax h)
  have hf := congrArg (fun l => l.get? k)
    (legendBlocks_fill range hr dataset lo hi hmin hmax h)
  simp only [List.get?_eq_getElem?, List.getElem?_map, List.getElem?_range hk,
    Option.map_some'] at hg hf
  cases hb : (legendBlocks range dataset)[k]? with
  | none => rw [hb] at hg; simp at hg
  | some b =>
    rw [hb] at hg hf
    simp only [Option.map_some', Option.some.injEq, Prod.mk.injEq] at hg hf
    exact ⟨b, by simp [hb], hg.1, hg.2.1, hg.2.2, by simpa using hf⟩

/-- The page's call of `buildHeatMap` draws the cell of observation `i` at position `i`. -/
theorem cells_get (dataset : Dataset) (i : Nat) (d : Observation)
    (hd : dataset.monthlyVariance.get? i = some d) :
    (buildHeatMap dataset moduleLoad).cells.get? i =
      some (cell d3.schemeRdYlBu11.reverse dataset d) := by
  rw [cells_buildHeatMap]
  simp only [List.get?_eq_getElem?] at hd
  simp [moduleLoad, Page.cells, hd]

/-- The page's call of `buildHeatMap` draws the legend of that call only. -/
theorem legendBlocks_moduleLoad (dataset : Dataset) :
    (buildHeatMap dataset moduleLoad).legendBlocks =
      legendBlocks d3.schemeRdYlBu11.reverse dataset := by
  rw [legendBlocks_buildHeatMap]
  simp [moduleLoad, Page.legendBlocks]

/-- The fill of a cell is the range entry after the bucket of its temperature. -/
theorem cell_fill_bucket (range : List String) (hr : range.length = 11) (dataset : Dataset)
    (lo hi : ℚ) (hmin : min dataset = some lo) (hmax : max dataset = some hi) (h : lo < hi)
    (d : Observation) (k : Nat) (hk : k < 10)
    (h1 : lo + (k : ℚ) * (hi - lo) / 10 ≤ dataset.baseTemperature + d.variance)
    (h2 : k < 9 → dataset.baseTemperature + d.variance <
      lo + ((k + 1 : Nat) : ℚ) * (hi - lo) / 10) :
    (cell range dataset d).fill = range.get? (k + 1) := by
  show colorScale range dataset _ = _
  rw [colorScale_eq range hr dataset lo hi hmin hmax h, bisect_tenths lo hi h _ k hk h1 h2]

/-- C2. With `min < max`, the domain of the colour scale is the ten breakpoints
`min + k * (max - min) / 10`, `k = 0..9`; the fill of each cell drawn by the page's call
of `buildHeatMap` is the palette entry at the least index whose breakpoint exceeds the
cell's temperature, entry 10 when none does; and the palette is the shipped ramp
reversed, dark blue first and dark red last. -/
theorem C2_color_thresholds (dataset : Dataset) (lo hi : ℚ) (hmin : min dataset = some lo)
    (hmax : max dataset = some hi) (h : lo < hi) :
    colorDomain dataset =
      (List.range 10).map (fun (k : Nat) => lo + (k : ℚ) * (hi - lo) / 10) ∧
    (buildHeatMap dataset moduleLoad).cells.map (fun c => c.fill) =
      dataset.monthlyVariance.map (fun d =>
        d3.schemeRdYlBu11.reverse.get? ((colorDomain dataset).findIdx
          (fun b => decide (dataset.baseTemperature + d.variance < b)))) ∧
    d3.schemeRdYlBu11.reverse =
      ["#313695", "#4575b4", "#74add1", "#abd9e9", "#e0f3f8", "#ffffbf",
       "#fee090", "#fdae61", "#f46d43", "#d73027", "#a50026"] := by
  refine ⟨colorDomain_eq dataset lo hi hmin hmax h, ?_, rfl⟩
  rw [cells_buildHeatMap]
  simp only [moduleLoad, Page.cells, List.flatMap_cons, List.flatMap_nil, List.append_nil,
    List.nil_append, List.map_map]
  apply List.map_congr_left
  intro d _
  show colorScale _ dataset _ = _
  rw [colorScale_eq d3.schemeRdYlBu11.reverse rfl dataset lo hi hmin hmax h, colorDomain_eq dataset lo hi hmin hmax h,
    ← d3.bisectRight_eq_findIdx _ _ (tenths_ascending lo hi h), tenths_length]

/-- C2 on the sample dataset, `min = -5` and `max = 5`. -/
theorem C2_color_thresholds_witness :
    colorDomain sampleDataset =
      (List.range 10).map (fun (k : Nat) => (-5 : ℚ) + (k : ℚ) * (5 - (-5)) / 10) ∧
    (buildHeatMap sampleDataset moduleLoad).cells.map (fun c => c.fill) =
      sampleDataset.monthlyVariance.map (fun d =>
        d3.schemeRdYlBu11.reverse.get? ((colorDomain sampleDataset).findIdx
          (fun b => decide (sampleDataset.baseTemperature + d.variance < b)))) ∧
    d3.schemeRdYlBu11.reverse =
      ["#313695", "#4575b4", "#74add1", "#abd9e9", "#e0f3f8", "#ffffbf",
       "#fee090", "#fdae61", "#f46d43", "#d73027", "#a50026"] :=
  C2_color_thresholds sampleDataset (-5) 5 min_sampleDataset max_sampleDataset (by norm_num)

/-- C5 (as amended). With `min < max`, the legend drawn by the page's call of
`buildHeatMap` has exactly `numOfColors = 10` blocks of size 30 by 30, block `i` at
x-offset `30 * i` for `i = 0..9`. -/
theorem C5_legend_blocks (dataset : Dataset) (lo hi : ℚ) (hmin : min dataset = some lo)
    (hmax : max dataset = some hi) (h : lo < hi) :
    (buildHeatMap dataset moduleLoad).legendBlocks.length = numOfColors ∧
    (buildHeatMap dataset moduleLoad).legendBlocks.map (fun b => (b.x, b.width, b.height)) =
      (List.range 10).map (fun (i : Nat) => ((30 : ℚ) * (i : ℚ), (30 : ℚ), (30 : ℚ))) := by
  rw [legendBlocks_moduleLoad]
  have hg := legendBlocks_geometry d3.schemeRdYlBu11.reverse dataset lo hi hmin hmax h
  refine ⟨?_, hg⟩
  have := congrArg List.length hg
  simpa [numOfColors] using this

/-- C5 (as amended) on the sample dataset, `min = -5` and `max = 5`. -/
theorem C5_legend_blocks_witness :
    (buildHeatMap sampleDataset moduleLoad).legendBlocks.length = numOfColors ∧
    (buildHeatMap sampleDataset moduleLoad).legendBlocks.map (fun b => (b.x, b.width, b.height)) =
      (List.range 10).map (fun (i : Nat) => ((30 : ℚ) * (i : ℚ), (30 : ℚ), (30 : ℚ))) :=
  C5_legend_blocks sampleDataset (-5) 5 min_sampleDataset max_sampleDataset (by norm_num)

/-- C5 as stated fails on the dataset with `min = -5` and `max = 5`: the legend has ten
blocks, not eleven, and none at offset 300. -/
theorem C5_counterexample :
    min sampleDataset = some (-5) ∧ max sampleDataset = some 5 ∧
    ¬ ((buildHeatMap sampleDataset moduleLoad).legendBlocks.length = numOfColors + 1) ∧
    ¬ (∃ b ∈ (buildHeatMap sampleDataset moduleLoad).legendBlocks, b.x = 300) := by
  have hg := legendBlocks_geometry d3.schemeRdYlBu11.reverse sampleDataset (-5) 5
    min_sampleDataset max_sampleDataset (by norm_num)
  refine ⟨min_sampleDataset, max_sampleDataset, ?_, ?_⟩
  · rw [legendBlocks_moduleLoad]
    have := congrArg List.length hg
    simp only [List.length_map, List.length_range] at this
    rw [this]
    decide
  · rw [legendBlocks_moduleLoad]
    rintro ⟨b, hb, hx⟩
    have hm : (b.x, b.width, b.height) ∈
        (legendBlocks d3.schemeRdYlBu11.reverse sampleDataset).map
          (fun b => (b.x, b.width, b.height)) := List.mem_map.mpr ⟨b, hb, rfl⟩
    rw [hg, List.mem_map] at hm
    obtain ⟨i, hi, he⟩ := hm
    rw [List.mem_range] at hi
    have h1 : (30 : ℚ) * (i : ℚ) = 300 := by
      have := congrArg Prod.fst he
      simp only at this
      rw [this, hx]
    have h2 : (i : ℚ) = 10 := by linarith
    have h3 : i = 10 := by exact_mod_cast h2
    omega

/-- The helper `legendThreshold(min, max, numOfColors)` of the script, which no call
reaches, returns the nine breakpoints after the first of the ten. -/
theorem legendThreshold_eq_drop (lo hi : ℚ) :
    legendThreshold lo hi numOfColors = (tenths lo hi).drop 1 := by
  simp [legendThreshold, tenths, numOfColors, List.range, List.range.loop]
  refine ⟨?_, ?_, ?_, ?_, ?_, ?_, ?_, ?_⟩ <;> ring

/-- C6 (as amended). With `min < max`, the domain of the colour scale has exactly
`numOfColors = 10` breakpoints: the first is `min` itself and the nine after it lie
strictly between `min` and `max`; every temperature of the dataset is mapped to one of
the ten palette entries 1..10, and entry 0 belongs to the bucket below `min`. The nine
breakpoints after the first are what the script's helper `legendThreshold` computes. -/
theorem C6_threshold_domain (dataset : Dataset) (lo hi : ℚ) (hmin : min dataset = some lo)
    (hmax : max dataset = some hi) (h : lo < hi) :
    (colorDomain dataset).length = numOfColors ∧
    (colorDomain dataset).head? = some lo ∧
    ((colorDomain dataset).drop 1).length = numOfColors - 1 ∧
    (∀ b ∈ (colorDomain dataset).drop 1, lo < b ∧ b < hi) ∧
    (∀ d ∈ dataset.monthlyVariance, ∃ i : Nat, 1 ≤ i ∧ i ≤ 10 ∧
      colorScale d3.schemeRdYlBu11.reverse dataset (dataset.baseTemperature + d.variance) =
        d3.schemeRdYlBu11.reverse.get? i) ∧
    (∀ x : ℚ, x < lo →
      colorScale d3.schemeRdYlBu11.reverse dataset x = d3.schemeRdYlBu11.reverse.get? 0) ∧
    legendThreshold lo hi numOfColors = (colorDomain dataset).drop 1 := by
  have hd : 0 < hi - lo := sub_pos.mpr h
  rw [colorDomain_eq dataset lo hi hmin hmax h]
  refine ⟨tenths_length lo hi, by simp [tenths, List.range, List.range.loop], ?_, ?_, ?_, ?_,
    legendThreshold_eq_drop lo hi⟩
  · simp [tenths_length, numOfColors]
  · intro b hb
    obtain ⟨j, hj, rfl⟩ := List.getElem_of_mem hb
    simp only [List.length_drop, tenths_length] at hj
    have hb' : ((tenths lo hi).drop 1)[j] = lo + ((j + 1 : Nat) : ℚ) * (hi - lo) / 10 := by
      rw [List.getElem_drop, ← tenths_getD lo hi (j + 1) (by omega),
        List.getD_eq_getElem _ _ (by rw [tenths_length]; omega)]
      congr 1
      omega
    rw [hb']
    have h1 : (0 : ℚ) < ((j + 1 : Nat) : ℚ) := by exact_mod_cast Nat.succ_pos j
    have h2 : ((j + 1 : Nat) : ℚ) ≤ 9 := by exact_mod_cast (by omega : j + 1 ≤ 9)
    constructor
    · have : 0 < ((j + 1 : Nat) : ℚ) * (hi - lo) := mul_pos h1 hd
      linarith
    · have : ((j + 1 : Nat) : ℚ) * (hi - lo) ≤ 9 * (hi - lo) :=
        mul_le_mul_of_nonneg_right h2 (le_of_lt hd)
      linarith
  · intro d hdm
    obtain ⟨k, hk, h1, h2⟩ := exists_bucket lo hi h _
      (temperature_bounds dataset lo hi hmin hmax d hdm).1
    refine ⟨k + 1, by omega, by omega, ?_⟩
    rw [colorScale_eq d3.schemeRdYlBu11.reverse rfl dataset lo hi hmin hmax h, bisect_tenths lo hi h _ k hk h1 h2]
  · intro x hx
    rw [colorScale_eq d3.schemeRdYlBu11.reverse rfl dataset lo hi hmin hmax h]
    obtain ⟨_, hl, _⟩ := d3.bisectRight_spec (tenths lo hi) x 10
      (by rw [tenths_length]) (tenths_ascending lo hi h)
    have : d3.bisectRight (tenths lo hi) x 0 10 = 0 := by
      by_contra hc
      have := hl 0 (by omega)
      rw [tenths_getD lo hi 0 (by omega)] at this
      simp at this
      linarith
    rw [this]

/-- C6 (as amended) on the sample dataset, `min = -5` and `max = 5`. -/
theorem C6_threshold_domain_witness :
    (colorDomain sampleDataset).length = numOfColors ∧
    (colorDomain sampleDataset).head? = some (-5) ∧
    ((colorDomain sampleDataset).drop 1).length = numOfColors - 1 ∧
    (∀ b ∈ (colorDomain sampleDataset).drop 1, (-5 : ℚ) < b ∧ b < 5) ∧
    (∀ d ∈ sampleDataset.monthlyVariance, ∃ i : Nat, 1 ≤ i ∧ i ≤ 10 ∧
      colorScale d3.schemeRdYlBu11.reverse sampleDataset
          (sampleDataset.baseTemperature + d.variance) =
        d3.schemeRdYlBu11.reverse.get? i) ∧
    (∀ x : ℚ, x < -5 →
      colorScale d3.schemeRdYlBu11.reverse sampleDataset x =
        d3.schemeRdYlBu11.reverse.get? 0) ∧
    legendThreshold (-5) 5 numOfColors = (colorDomain sampleDataset).drop 1 :=
  C6_threshold_domain sampleDataset (-5) 5 min_sampleDataset max_sampleDataset (by norm_num)

/-- C6 as stated fails on the dataset with `min = -5` and `max = 5`: the domain has ten
breakpoints, not nine, and its first breakpoint is `min`, not a value above it. -/
theorem C6_counterexample :
    min sampleDataset = some (-5) ∧ max sampleDataset = some 5 ∧
    ¬ ((colorDomain sampleDataset).length = numOfColors - 1) ∧
    ¬ (∀ b ∈ colorDomain sampleDataset, (-5 : ℚ) < b ∧ b < 5) := by
  have hdom : colorDomain sampleDataset = [-5, -4, -3, -2, -1, 0, 1, 2, 3, 4] := by
    rw [colorDomain_eq sampleDataset (-5) 5 min_sampleDataset max_sampleDataset (by norm_num),
      tenths_sample]
  refine ⟨min_sampleDataset, max_sampleDataset, ?_, ?_⟩
  · rw [hdom]
    decide
  · rw [hdom]
    intro hall
    have := (hall (-5) (by simp)).1
    exact absurd this (lt_irrefl _)

/-- With `min < max`, `legendX` is `300 * (x - min) / (max - min)`. -/
theorem legendX_eq (dataset : Dataset) (lo hi : ℚ) (hmin : min dataset = some lo)
    (hmax : max dataset = some hi) (h : lo < hi) (x : ℚ) :
    legendX dataset x = some (300 * (x - lo) / (hi - lo)) := by
  have hd : hi - lo ≠ 0 := ne_of_gt (sub_pos.mpr h)
  unfold legendX d3.scaleLinear
  rw [hmin, hmax]
  simp only [hd, ne_eq, not_false_eq_true, if_true, numOfColors, blockSize, Option.some.injEq]
  push_cast
  ring

/-- C9. With `min < max`, the tick values of the legend axis drawn by the page's call of
`buildHeatMap` are the breakpoints of the colour scale without the first one (which is
`min`), that is the nine values `min + k * (max - min) / 10`, `k = 1..9`; and `legendX`
sends breakpoint `k` to `30 * k`, the left edge of legend block `k`. -/
theorem C9_legend_ticks (dataset : Dataset) (lo hi : ℚ) (hmin : min dataset = some lo)
    (hmax : max dataset = some hi) (h : lo < hi) :
    (buildHeatMap dataset moduleLoad).legendTicks = (colorDomain dataset).drop 1 ∧
    (colorDomain dataset).head? = some lo ∧
    (buildHeatMap dataset moduleLoad).legendTicks =
      (List.range 9).map (fun (j : Nat) => lo + ((j + 1 : Nat) : ℚ) * (hi - lo) / 10) ∧
    (∀ k : Nat, 1 ≤ k → k ≤ 9 →
      legendX dataset (lo + (k : ℚ) * (hi - lo) / 10) = some (30 * (k : ℚ)) ∧
      ∃ b, (buildHeatMap dataset moduleLoad).legendBlocks.get? k = some b ∧
        b.x = 30 * (k : ℚ)) := by
  have hd : hi - lo ≠ 0 := ne_of_gt (sub_pos.mpr h)
  have ht : (buildHeatMap dataset moduleLoad).legendTicks = (colorDomain dataset).drop 1 := by
    rw [legendTicks_buildHeatMap]
    simp [moduleLoad, Page.legendTicks]
  refine ⟨ht, ?_, ?_, ?_⟩
  · rw [colorDomain_eq dataset lo hi hmin hmax h]
    simp [tenths, List.range, List.range.loop]
  · rw [ht, colorDomain_eq dataset lo hi hmin hmax h]
    simp [tenths, List.range, List.range.loop]
    norm_num
  · intro k h1 h9
    constructor
    · rw [legendX_eq dataset lo hi hmin hmax h]
      congr 1
      field_simp
      ring
    · rw [legendBlocks_moduleLoad]
      obtain ⟨b, hb, hx, _⟩ := legendBlock_at d3.schemeRdYlBu11.reverse rfl dataset lo hi
        hmin hmax h k (by omega)
      exact ⟨b, hb, hx⟩

/-- C9 on the sample dataset, at breakpoint 3. -/
theorem C9_legend_ticks_witness :
    legendX sampleDataset (-5 + ((3 : Nat) : ℚ) * (5 - (-5)) / 10) = some (30 * ((3 : Nat) : ℚ)) ∧
    ∃ b, (buildHeatMap sampleDataset moduleLoad).legendBlocks.get? 3 = some b ∧
      b.x = 30 * ((3 : Nat) : ℚ) :=
  (C9_legend_ticks sampleDataset (-5) 5 min_sampleDataset max_sampleDataset
    (by norm_num)).2.2.2 3 (by decide) (by decide)

/-- C10. With `min < max`, the cell of an observation is filled like the legend block
`k` whose extent `[30 k, 30 (k + 1))` contains the image of its temperature under
`legendX`, block 9 for the temperature `max`; every cell colour is a legend colour; and
entry 0 of the reversed ramp fills no cell and no legend block. -/
theorem C10_cell_fill_matches_legend (dataset : Dataset) (lo hi : ℚ)
    (hmin : min dataset = some lo) (hmax : max dataset = some hi) (h : lo < hi) :
    (∀ (i : Nat) (d : Observation) (k : Nat) (p : ℚ),
      dataset.monthlyVariance.get? i = some d → k < 10 →
      legendX dataset (dataset.baseTemperature + d.variance) = some p →
      ((30 * (k : ℚ) ≤ p ∧ p < 30 * ((k : ℚ) + 1)) ∨
        (k = 9 ∧ dataset.baseTemperature + d.variance = hi)) →
      ∃ c b, (buildHeatMap dataset moduleLoad).cells.get? i = some c ∧
        (buildHeatMap dataset moduleLoad).legendBlocks.get? k = some b ∧
        b.x = 30 * (k : ℚ) ∧ b.width = 30 ∧ c.fill = b.fill) ∧
    (∀ (i : Nat) (d : Observation), dataset.monthlyVariance.get? i = some d →
      ∃ (k : Nat) (p : ℚ), k < 10 ∧
        legendX dataset (dataset.baseTemperature + d.variance) = some p ∧
        ((30 * (k : ℚ) ≤ p ∧ p < 30 * ((k : ℚ) + 1)) ∨
          (k = 9 ∧ dataset.baseTemperature + d.variance = hi))) ∧
    (∀ c ∈ (buildHeatMap dataset moduleLoad).cells,
      ∃ b ∈ (buildHeatMap dataset moduleLoad).legendBlocks, c.fill = b.fill) ∧
    (∀ c ∈ (buildHeatMap dataset moduleLoad).cells,
      c.fill ≠ d3.schemeRdYlBu11.reverse.get? 0) ∧
    (∀ b ∈ (buildHeatMap dataset moduleLoad).legendBlocks,
      b.fill ≠ d3.schemeRdYlBu11.reverse.get? 0) := by
  have hd : 0 < hi - lo := sub_pos.mpr h
  have hne : ∀ k : Nat, k < 10 →
      d3.schemeRdYlBu11.reverse.get? (k + 1) ≠ d3.schemeRdYlBu11.reverse.get? 0 := by
    intro k hk
    interval_cases k <;> decide
  have hblock := legendBlock_at d3.schemeRdYlBu11.reverse rfl dataset lo hi hmin hmax h
  refine ⟨?_, ?_, ?_, ?_, ?_⟩
  · intro i d k p hi' hk hp hcase
    rw [legendX_eq dataset lo hi hmin hmax h, Option.some.injEq] at hp
    obtain ⟨b, hb, hx, hw, _, hf⟩ := hblock k hk
    refine ⟨_, b, cells_get dataset i d hi', by rw [legendBlocks_moduleLoad]; exact hb,
      hx, hw, ?_⟩
    rw [hf]
    have hbd := temperature_bounds dataset lo hi hmin hmax d (List.get?_mem hi')
    apply cell_fill_bucket d3.schemeRdYlBu11.reverse rfl dataset lo hi hmin hmax h d k hk
    · rcases hcase with ⟨h1, _⟩ | ⟨rfl, ht⟩
      · rw [← hp, le_div_iff₀ hd] at h1
        linarith
      · rw [ht]
        push_cast
        linarith
    · intro hk9
      rcases hcase with ⟨_, h2⟩ | ⟨rfl, _⟩
      · rw [← hp, div_lt_iff₀ hd] at h2
        push_cast
        linarith
      · omega
  · intro i d hi'
    have hbd := temperature_bounds dataset lo hi hmin hmax d (List.get?_mem hi')
    obtain ⟨k, hk, h1, h2⟩ := exists_bucket lo hi h _ hbd.1
    refine ⟨k, _, hk, legendX_eq dataset lo hi hmin hmax h _, ?_⟩
    by_cases hk9 : k < 9
    · left
      have h2' := h2 hk9
      push_cast at h2'
      constructor
      · rw [le_div_iff₀ hd]
        linarith
      · rw [div_lt_iff₀ hd]
        linarith
    · have hk' : k = 9 := by omega
      subst hk'
      by_cases ht : dataset.baseTemperature + d.variance = hi
      · right
        exact ⟨rfl, ht⟩
      · left
        have hlt : dataset.baseTemperature + d.variance < hi := lt_of_le_of_ne hbd.2 ht
        push_cast at h1
        constructor
        · rw [le_div_iff₀ hd]
          push_cast
          linarith
        · rw [div_lt_iff₀ hd]
          push_cast
          linarith
  · intro c hc
    rw [cells_buildHeatMap] at hc
    simp only [moduleLoad, Page.cells, List.flatMap_cons, List.flatMap_nil, List.append_nil,
      List.nil_append, List.mem_map] at hc
    obtain ⟨d, hdm, rfl⟩ := hc
    obtain ⟨k, hk, h1, h2⟩ := exists_bucket lo hi h _
      (temperature_bounds dataset lo hi hmin hmax d hdm).1
    obtain ⟨b, hb, _, _, _, hf⟩ := hblock k hk
    refine ⟨b, by rw [legendBlocks_moduleLoad]; exact List.get?_mem hb, ?_⟩
    rw [hf]
    exact cell_fill_bucket d3.schemeRdYlBu11.reverse rfl dataset lo hi hmin hmax h d k hk h1 h2
  · intro c hc
    rw [cells_buildHeatMap] at hc
    simp only [moduleLoad, Page.cells, List.flatMap_cons, List.flatMap_nil, List.append_nil,
      List.nil_append, List.mem_map] at hc
    obtain ⟨d, hdm, rfl⟩ := hc
    obtain ⟨k, hk, h1, h2⟩ := exists_bucket lo hi h _
      (temperature_bounds dataset lo hi hmin hmax d hdm).1
    rw [cell_fill_bucket d3.schemeRdYlBu11.reverse rfl dataset lo hi hmin hmax h d k hk h1 h2]
    exact hne k hk
  · intro b hb
    rw [legendBlocks_moduleLoad] at hb
    obtain ⟨k, hk, hbk⟩ := List.getElem_of_mem hb
    have hlen : (legendBlocks d3.schemeRdYlBu11.reverse dataset).length = 10 := by
      have := congrArg List.length
        (legendBlocks_geometry d3.schemeRdYlBu11.reverse dataset lo hi hmin hmax h)
      simpa using this
    obtain ⟨b', hb', _, _, _, hf⟩ := hblock k (by omega)
    rw [List.get?_eq_getElem?, List.getElem?_eq_getElem hk, Option.some.injEq, hbk] at hb'
    subst hb'
    rw [hf]
    exact hne k (by omega)

/-- C10 on the sample dataset: the cell of the temperature `max` and legend block 9. -/
theorem C10_cell_fill_matches_legend_witness :
    ∃ c b, (buildHeatMap sampleDataset moduleLoad).cells.get? 1 = some c ∧
      (buildHeatMap sampleDataset moduleLoad).legendBlocks.get? 9 = some b ∧
      b.x = 30 * ((9 : Nat) : ℚ) ∧ b.width = 30 ∧ c.fill = b.fill :=
  (C10_cell_fill_matches_legend sampleDataset (-5) 5 min_sampleDataset max_sampleDataset
    (by norm_num)).1 1 { year := 2000, month := 2, variance := 5 } 9 300 rfl (by decide)
    (by
      rw [legendX_eq sampleDataset (-5) 5 min_sampleDataset max_sampleDataset (by norm_num)]
      norm_num [sampleDataset])
    (Or.inr ⟨rfl, by norm_num [sampleDataset]⟩)

/-- The fills of the cells that one call draws for the sample dataset, over a range of
eleven entries: entry 1 for the temperature `min`, entry 10 for the temperature `max`. -/
theorem sample_cell_fills (range : List String) (hr : range.length = 11) :
    sampleDataset.monthlyVariance.map (fun d => (cell range sampleDataset d).fill) =
      [range.get? 1, range.get? 10] := by
  have h0 := cell_fill_bucket range hr sampleDataset (-5) 5 min_sampleDataset
    max_sampleDataset (by norm_num) { year := 2000, month := 1, variance := -5 } 0
    (by decide) (by norm_num [sampleDataset]) (by intro _; norm_num [sampleDataset])
  have h9 := cell_fill_bucket range hr sampleDataset (-5) 5 min_sampleDataset
    max_sampleDataset (by norm_num) { year := 2000, month := 2, variance := 5 } 9
    (by decide) (by norm_num [sampleDataset]) (by intro hc; omega)
  simp only [sampleDataset, List.map_cons, List.map_nil] at h0 h9 ⊢
  rw [h0, h9]

/-! ## The geometry of the cells -/

/-- The chart is 1340 wide. -/
theorem width_eq : width = 1340 := by norm_num [width, margin]

/-- The rows span 410. -/
theorem chartHeight_eq : height - margin.bottom = 410 := by norm_num [height, margin]

/-- The column of a cell: `xScale` sends a year of the dataset to
`1 + i * (width - 1) / n`, `i` its index among the `n` distinct years. -/
theorem xScale_apply (dataset : Dataset) (d : Observation)
    (hd : d ∈ dataset.monthlyVariance) :
    (xScale dataset).apply d.year =
      some (1 + ((distinctYears dataset).indexOf d.year : ℚ) * (width - 1) /
        ((distinctYears dataset).length : ℚ)) := by
  unfold xScale distinctYears
  exact d3.scaleBand_apply _ 1 width (by rw [width_eq]; norm_num) d.year
    (List.mem_map.mpr ⟨d, hd, rfl⟩)

/-- The width of a column. -/
theorem xScale_bandwidth (dataset : Dataset) (d : Observation)
    (hd : d ∈ dataset.monthlyVariance) :
    (xScale dataset).bandwidth = (width - 1) / ((distinctYears dataset).length : ℚ) := by
  unfold xScale distinctYears
  exact d3.scaleBand_bandwidth _ 1 width (by rw [width_eq]; norm_num)
    (List.ne_nil_of_mem (List.mem_map.mpr ⟨d, hd, rfl⟩))

/-- The height of a row. -/
theorem yScale_bandwidth : yScale.bandwidth = (height - margin.bottom) / 12 := by
  unfold yScale
  rw [d3.scaleBand_bandwidth _ 0 _ (by rw [chartHeight_eq]; norm_num) (by simp)]
  simp [d3.firstAppearance]

/-- The row of a cell: `yScale` sends the month index `m - 1` of a month `m` in 1..12 to
`(m - 1) * (height - margin.bottom) / 12`. -/
theorem yScale_apply (m : Int) (h1 : 1 ≤ m) (h2 : m ≤ 12) :
    yScale.apply (m - 1) = some (((m : ℚ) - 1) * (height - margin.bottom) / 12) := by
  unfold yScale
  rw [d3.scaleBand_apply _ 0 _ (by rw [chartHeight_eq]; norm_num) _ (by
    simp only [List.mem_cons, List.mem_singleton, List.not_mem_nil, or_false]
    omega)]
  interval_cases m <;>
    simp [d3.firstAppearance, List.indexOf, List.findIdx, List.findIdx.go] <;> norm_num

/-- Outside the months 1..12 `yScale` is undefined. -/
theorem yScale_apply_none (m : Int) (h : m < 1 ∨ 12 < m) : yScale.apply (m - 1) = none := by
  have hdom : yScale.domain = [0, 1, 2, 3, 4, 5, 6, 7, 8, 9, 10, 11] := rfl
  unfold d3.BandScale.apply
  rw [hdom, if_neg]
  simp only [List.mem_cons, List.mem_singleton, List.not_mem_nil, or_false]
  omega

/-- The rectangle of an observation of the dataset: column by the index of its year,
row by its month when the month is in 1..12. -/
theorem cell_geometry (range : List String) (dataset : Dataset) (d : Observation)
    (hd : d ∈ dataset.monthlyVariance) :
    (cell range dataset d).x =
      some (1 + ((distinctYears dataset).indexOf d.year : ℚ) * (width - 1) /
        ((distinctYears dataset).length : ℚ)) ∧
    (cell range dataset d).width = (width - 1) / ((distinctYears dataset).length : ℚ) ∧
    (cell range dataset d).height = (height - margin.bottom) / 12 ∧
    (cell range dataset d).y = yScale.apply (d.month - 1) ∧
    (1 ≤ d.month → d.month ≤ 12 →
      (cell range dataset d).y = some (((d.month : ℚ) - 1) * (height - margin.bottom) / 12)) :=
  ⟨xScale_apply dataset d hd, xScale_bandwidth dataset d hd, yScale_bandwidth, rfl,
    fun h1 h2 => yScale_apply d.month h1 h2⟩

/-- The index of a year of the dataset among the distinct years. -/
theorem indexOf_year_lt (dataset : Dataset) (d : Observation)
    (hd : d ∈ dataset.monthlyVariance) :
    (distinctYears dataset).indexOf d.year < (distinctYears dataset).length :=
  List.indexOf_lt_length.mpr
    ((d3.mem_firstAppearance _ _).mpr (List.mem_map.mpr ⟨d, hd, rfl⟩))

/-- C3 (as amended). In exact arithmetic, in the chart drawn by the page's call of
`buildHeatMap`, the cell of an observation whose year is the `j`-th distinct year in
first-appearance order (`j` from 0, `n` distinct years) has `x = 1 + j * (width - 1) / n`
and width `(width - 1) / n`, and height `(height - margin.bottom) / 12`; its `y` is what
`yScale` gives for `month - 1`, namely `(month - 1) * (height - margin.bottom) / 12` for a
month in 1..12. Cells of the same year share `x` and width, cells of the same month share
`y` and height, the height of a band of the y-axis; with months in 1..12 a cell lies
inside `[1, width] x [0, height - margin.bottom]` and two cells of observations that
differ in year or month have disjoint interiors. -/
theorem C3_cell_geometry (dataset : Dataset) :
    (∀ (i : Nat) (d : Observation), dataset.monthlyVariance.get? i = some d →
      ∃ c, (buildHeatMap dataset moduleLoad).cells.get? i = some c ∧
        c.width = (width - 1) / ((distinctYears dataset).length : ℚ) ∧
        c.height = (height - margin.bottom) / 12 ∧
        c.height = yScale.bandwidth ∧
        c.y = yScale.apply (d.month - 1) ∧
        (∀ j : Nat, (distinctYears dataset).get? j = some d.year →
          c.x = some (1 + (j : ℚ) * (width - 1) / ((distinctYears dataset).length : ℚ))) ∧
        (1 ≤ d.month → d.month ≤ 12 →
          c.y = some (((d.month : ℚ) - 1) * (height - margin.bottom) / 12) ∧
          ∃ x y, c.x = some x ∧ c.y = some y ∧ 1 ≤ x ∧ x + c.width ≤ width ∧
            0 ≤ y ∧ y + c.height ≤ height - margin.bottom)) ∧
    (∀ (i1 i2 : Nat) (d1 d2 : Observation) (c1 c2 : Cell),
      dataset.monthlyVariance.get? i1 = some d1 →
      dataset.monthlyVariance.get? i2 = some d2 →
      (buildHeatMap dataset moduleLoad).cells.get? i1 = some c1 →
      (buildHeatMap dataset moduleLoad).cells.get? i2 = some c2 →
      (d1.year = d2.year → c1.x = c2.x ∧ c1.width = c2.width) ∧
      (d1.month = d2.month → c1.y = c2.y ∧ c1.height = c2.height) ∧
      (d1.year ≠ d2.year ∨ d1.month ≠ d2.month →
        1 ≤ d1.month → d1.month ≤ 12 → 1 ≤ d2.month → d2.month ≤ 12 →
        ∃ x1 y1 x2 y2, c1.x = some x1 ∧ c1.y = some y1 ∧ c2.x = some x2 ∧ c2.y = some y2 ∧
          (x1 + c1.width ≤ x2 ∨ x2 + c2.width ≤ x1 ∨
            y1 + c1.height ≤ y2 ∨ y2 + c2.height ≤ y1))) := by
  constructor
  · intro i d hi
    have hd : d ∈ dataset.monthlyVariance := List.get?_mem hi
    obtain ⟨hx, hw, hh, hy, hy'⟩ := cell_geometry d3.schemeRdYlBu11.reverse dataset d hd
    have hidx := indexOf_year_lt dataset d hd
    have hn : (0 : ℚ) < ((distinctYears dataset).length : ℚ) := by
      exact_mod_cast (by omega : 0 < (distinctYears dataset).length)
    refine ⟨_, cells_get dataset i d hi, hw, hh, hh.trans yScale_bandwidth.symm, hy, ?_, ?_⟩
    · intro j hj
      have : (distinctYears dataset).indexOf d.year = j := by
        rw [List.get?_eq_getElem?] at hj
        obtain ⟨hjl, hje⟩ := List.getElem?_eq_some_iff.mp hj
        rw [← hje]
        exact List.indexOf_getElem (d3.nodup_firstAppearance _) j hjl
      rw [hx, this]
    · intro h1 h2
      refine ⟨hy' h1 h2, _, _, hx, hy' h1 h2, ?_, ?_, ?_, ?_⟩
      · have : (0 : ℚ) ≤ ((distinctYears dataset).indexOf d.year : ℚ) * (width - 1) /
            ((distinctYears dataset).length : ℚ) := by
          rw [width_eq]
          positivity
        linarith
      · rw [hw, width_eq]
        have hle : ((distinctYears dataset).indexOf d.year : ℚ) + 1 ≤
            ((distinctYears dataset).length : ℚ) := by exact_mod_cast hidx
        have : ((distinctYears dataset).indexOf d.year : ℚ) * (1340 - 1) /
            ((distinctYears dataset).length : ℚ) + (1340 - 1) /
            ((distinctYears dataset).length : ℚ) ≤ 1339 := by
          rw [← add_div, div_le_iff₀ hn]
          nlinarith
        linarith
      · rw [chartHeight_eq]
        have : (1 : ℚ) ≤ (d.month : ℚ) := by exact_mod_cast h1
        have : (0 : ℚ) ≤ ((d.month : ℚ) - 1) * 410 := by nlinarith
        linarith
      · rw [hh, chartHeight_eq]
        have : (d.month : ℚ) ≤ 12 := by exact_mod_cast h2
        linarith
  · intro i1 i2 d1 d2 c1 c2 hi1 hi2 hc1 hc2
    have hd1 : d1 ∈ dataset.monthlyVariance := List.get?_mem hi1
    have hd2 : d2 ∈ dataset.monthlyVariance := List.get?_mem hi2
    rw [cells_get dataset i1 d1 hi1, Option.some.injEq] at hc1
    rw [cells_get dataset i2 d2 hi2, Option.some.injEq] at hc2
    subst hc1 hc2
    obtain ⟨hx1, hw1, hh1, hy1, hy1'⟩ := cell_geometry d3.schemeRdYlBu11.reverse dataset d1 hd1
    obtain ⟨hx2, hw2, hh2, hy2, hy2'⟩ := cell_geometry d3.schemeRdYlBu11.reverse dataset d2 hd2
    have hidx1 := indexOf_year_lt dataset d1 hd1
    have hidx2 := indexOf_year_lt dataset d2 hd2
    have hn : (0 : ℚ) < ((distinctYears dataset).length : ℚ) := by
      exact_mod_cast (by omega : 0 < (distinctYears dataset).length)
    refine ⟨?_, ?_, ?_⟩
    · intro hyr
      rw [hx1, hx2, hw1, hw2, hyr]
      exact ⟨rfl, rfl⟩
    · intro hmo
      rw [hy1, hy2, hh1, hh2, hmo]
      exact ⟨rfl, rfl⟩
    · intro hne a1 a2 b1 b2
      refine ⟨_, _, _, _, hx1, hy1' a1 a2, hx2, hy2' b1 b2, ?_⟩
      rw [hw1, hw2, hh1, hh2, chartHeight_eq, width_eq]
      have hs : (0 : ℚ) ≤ (1340 - 1) / ((distinctYears dataset).length : ℚ) := by positivity
      have step : ∀ a b : Nat, a < b →
          1 + (a : ℚ) * (1340 - 1) / ((distinctYears dataset).length : ℚ) +
            (1340 - 1) / ((distinctYears dataset).length : ℚ) ≤
          1 + (b : ℚ) * (1340 - 1) / ((distinctYears dataset).length : ℚ) := by
        intro a b hab
        have hab' : (a : ℚ) + 1 ≤ (b : ℚ) := by exact_mod_cast hab
        have : ((a : ℚ) + 1) * ((1340 - 1) / ((distinctYears dataset).length : ℚ)) ≤
            (b : ℚ) * ((1340 - 1) / ((distinctYears dataset).length : ℚ)) :=
          mul_le_mul_of_nonneg_right hab' hs
        have e1 : (a : ℚ) * (1340 - 1) / ((distinctYears dataset).length : ℚ) =
            (a : ℚ) * ((1340 - 1) / ((distinctYears dataset).length : ℚ)) := by ring
        have e2 : (b : ℚ) * (1340 - 1) / ((distinctYears dataset).length : ℚ) =
            (b : ℚ) * ((1340 - 1) / ((distinctYears dataset).length : ℚ)) := by ring
        rw [e1, e2]
        linarith
      by_cases hyr : d1.year = d2.year
      · have hmo : d1.month ≠ d2.month := by
          rcases hne with h | h
          · exact absurd hyr h
          · exact h
        rcases lt_or_gt_of_ne hmo with hlt | hgt
        · right; right; left
          have : (d1.month : ℚ) + 1 ≤ (d2.month : ℚ) := by exact_mod_cast hlt
          linarith
        · right; right; right
          have : (d2.month : ℚ) + 1 ≤ (d1.month : ℚ) := by exact_mod_cast hgt
          linarith
      · have hix : (distinctYears dataset).indexOf d1.year ≠
            (distinctYears dataset).indexOf d2.year := by
          intro he
          apply hyr
          exact (List.indexOf_inj
            ((d3.mem_firstAppearance _ _).mpr (List.mem_map.mpr ⟨d1, hd1, rfl⟩))
            ((d3.mem_firstAppearance _ _).mpr (List.mem_map.mpr ⟨d2, hd2, rfl⟩))).mp he
        rcases lt_or_gt_of_ne hix with hlt | hgt
        · left
          exact step _ _ hlt
        · right; left
          exact step _ _ hgt

/-- C3 (as amended) on the sample dataset: the cell of month 2, and the two cells of the year 2000. -/
theorem C3_cell_geometry_witness :
    (∃ c, (buildHeatMap sampleDataset moduleLoad).cells.get? 1 = some c ∧
      c.x = some (1 + ((0 : Nat) : ℚ) * (width - 1) /
        ((distinctYears sampleDataset).length : ℚ)) ∧
      c.y = some ((((2 : Int) : ℚ) - 1) * (height - margin.bottom) / 12)) ∧
    (∃ x1 y1 x2 y2,
      (cell d3.schemeRdYlBu11.reverse sampleDataset
        { year := 2000, month := 1, variance := -5 }).x = some x1 ∧
      (cell d3.schemeRdYlBu11.reverse sampleDataset
        { year := 2000, month := 1, variance := -5 }).y = some y1 ∧
      (cell d3.schemeRdYlBu11.reverse sampleDataset
        { year := 2000, month := 2, variance := 5 }).x = some x2 ∧
      (cell d3.schemeRdYlBu11.reverse sampleDataset
        { year := 2000, month := 2, variance := 5 }).y = some y2 ∧
      (x1 + (cell d3.schemeRdYlBu11.reverse sampleDataset
          { year := 2000, month := 1, variance := -5 }).width ≤ x2 ∨
        x2 + (cell d3.schemeRdYlBu11.reverse sampleDataset
          { year := 2000, month := 2, variance := 5 }).width ≤ x1 ∨
        y1 + (cell d3.schemeRdYlBu11.reverse sampleDataset
          { year := 2000, month := 1, variance := -5 }).height ≤ y2 ∨
        y2 + (cell d3.schemeRdYlBu11.reverse sampleDataset
          { year := 2000, month := 2, variance := 5 }).height ≤ y1)) :=
  ⟨match (C3_cell_geometry sampleDataset).1 1 { year := 2000, month := 2, variance := 5 } rfl with
    | ⟨c, hc, _, _, _, _, hx, hin⟩ => ⟨c, hc, hx 0 rfl, (hin (by decide) (by decide)).1⟩,
   ((C3_cell_geometry sampleDataset).2 0 1 { year := 2000, month := 1, variance := -5 }
      { year := 2000, month := 2, variance := 5 } _ _ rfl rfl
      (cells_get sampleDataset 0 _ rfl) (cells_get sampleDataset 1 _ rfl)).2.2
      (Or.inr (by decide)) (by decide) (by decide) (by decide) (by decide)⟩

/-- What the local `min` returns is the least temperature of the dataset. -/
theorem min_eq_some_iff (dataset : Dataset) (lo : ℚ) :
    min dataset = some lo ↔
      lo ∈ temperatures dataset ∧ ∀ t ∈ temperatures dataset, lo ≤ t := by
  constructor
  · exact d3.min_spec _ lo
  · rintro ⟨hm, hl⟩
    cases hmin : min dataset with
    | none =>
      unfold min at hmin
      cases ht : temperatures dataset with
      | nil => rw [ht] at hm; simp at hm
      | cons v vs => rw [ht] at hmin; simp [d3.min] at hmin
    | some m =>
      obtain ⟨h1, h2⟩ := d3.min_spec _ m hmin
      rw [le_antisymm (h2 lo hm) (hl m h1)]

/-- What the local `max` returns is the greatest temperature of the dataset. -/
theorem max_eq_some_iff (dataset : Dataset) (hi : ℚ) :
    max dataset = some hi ↔
      hi ∈ temperatures dataset ∧ ∀ t ∈ temperatures dataset, t ≤ hi := by
  constructor
  · exact d3.max_spec _ hi
  · rintro ⟨hm, hl⟩
    cases hmax : max dataset with
    | none =>
      unfold max at hmax
      cases ht : temperatures dataset with
      | nil => rw [ht] at hm; simp at hm
      | cons v vs => rw [ht] at hmax; simp [d3.max] at hmax
    | some m =>
      obtain ⟨h1, h2⟩ := d3.max_spec _ m hmax
      rw [le_antisymm (hl m h1) (h2 hi hm)]

/-! ## The geometry of the cells in binary64 -/

/-- The row scale in binary64: its domain, its bandwidth, and the start of row `i`,
`binary64 (0 + binary64 (step * i))` with `step` the binary64 value of `410 / 12`. -/
theorem yScale64_eq :
    yScale64 =
      { domain := [0, 1, 2, 3, 4, 5, 6, 7, 8, 9, 10, 11],
        values := (List.range 12).map (fun (i : Nat) =>
          d3.binary64 (0 + d3.binary64 (4808530852140373 / 140737488355328 * (i : ℚ)))),
        bandwidth := 4808530852140373 / 140737488355328 } := by
  unfold yScale64
  rw [chartHeight_eq]
  exact d3.scaleBand64_eq _ [0, 1, 2, 3, 4, 5, 6, 7, 8, 9, 10, 11] 0 410 410
    (4808530852140373 / 140737488355328) 410 0 0 0 (4808530852140373 / 140737488355328)
    (by norm_num) (by decide) (by decide)
    (by norm_num [d3.binary64_span_y])
    (by norm_num [d3.binary64_step_y])
    (by norm_num [d3.binary64_step_y_times_12])
    (by norm_num [d3.binary64_zero])
    (by norm_num [d3.binary64_zero])
    (by norm_num [d3.binary64_zero])
    (by norm_num [d3.binary64_step_y_id])

/-- The column scale in binary64 for the dataset of one year. -/
theorem xScale64_adjacentMonths :
    xScale64 adjacentMonthsDataset =
      { domain := [2000],
        values := (List.range 1).map (fun (i : Nat) =>
          d3.binary64 (1 + d3.binary64 (1339 * (i : ℚ)))),
        bandwidth := 1339 } := by
  unfold xScale64
  rw [width_eq]
  exact d3.scaleBand64_eq _ [2000] 1 1340 1339 1339 1339 0 0 1 1339
    (by norm_num) (by decide) (by decide)
    (by norm_num [d3.binary64_span_x])
    (by norm_num [d3.binary64_span_x])
    (by norm_num [d3.binary64_span_x])
    (by norm_num [d3.binary64_zero])
    (by norm_num [d3.binary64_zero])
    (by norm_num [d3.binary64_zero, d3.binary64_one])
    (by norm_num [d3.binary64_span_x])

/-- The rectangle of the April observation, in binary64. -/
theorem cellBox64_april :
    cellBox64 adjacentMonthsDataset { year := 2000, month := 4, variance := 0 } =
      { x := some 1, y := some (205 / 2), width := 1339,
        height := 4808530852140373 / 140737488355328 } := by
  unfold cellBox64
  rw [yScale64_eq, xScale64_adjacentMonths]
  simp [d3.BandScale.apply, List.indexOf, List.findIdx, List.findIdx.go, List.range,
    List.range.loop]
  norm_num [d3.binary64_zero, d3.binary64_one, d3.binary64_step_y_times_3, d3.binary64_row_3]

/-- The rectangle of the May observation, in binary64. -/
theorem cellBox64_may :
    cellBox64 adjacentMonthsDataset { year := 2000, month := 5, variance := 1 } =
      { x := some 1, y := some (4808530852140373 / 35184372088832), width := 1339,
        height := 4808530852140373 / 140737488355328 } := by
  unfold cellBox64
  rw [yScale64_eq, xScale64_adjacentMonths]
  simp [d3.BandScale.apply, List.indexOf, List.findIdx, List.findIdx.go, List.range,
    List.range.loop]
  norm_num [d3.binary64_zero, d3.binary64_one, d3.binary64_row_4]

/-- C3 as stated fails on what the script emits. For two observations of the year 2000,
April and May, the band scales computed in binary64 give the rectangles
`x = 1, y = 102.5` and `x = 1, y = 136.66666666666666`, both 1339 wide and
34.166666666666664 high: the April rectangle ends `2 ^ (-47)` below the start of the May
rectangle, so the interiors of the two cells are not disjoint. -/
theorem C3_counterexample :
    adjacentMonthsDataset.monthlyVariance =
      [{ year := 2000, month := 4, variance := 0 }, { year := 2000, month := 5, variance := 1 }] ∧
    cellBox64 adjacentMonthsDataset { year := 2000, month := 4, variance := 0 } =
      { x := some 1, y := some (205 / 2), width := 1339,
        height := 4808530852140373 / 140737488355328 } ∧
    cellBox64 adjacentMonthsDataset { year := 2000, month := 5, variance := 1 } =
      { x := some 1, y := some (4808530852140373 / 35184372088832), width := 1339,
        height := 4808530852140373 / 140737488355328 } ∧
    ¬ ((1 : ℚ) + 1339 ≤ 1 ∨ (1 : ℚ) + 1339 ≤ 1 ∨
      (205 / 2 : ℚ) + 4808530852140373 / 140737488355328 ≤ 4808530852140373 / 35184372088832 ∨
      (4808530852140373 / 35184372088832 : ℚ) + 4808530852140373 / 140737488355328 ≤ 205 / 2) ∧
    (205 / 2 : ℚ) + 4808530852140373 / 140737488355328 - 4808530852140373 / 35184372088832 =
      1 / 2 ^ 47 := by
  refine ⟨rfl, cellBox64_april, cellBox64_may, ?_, ?_⟩
  · norm_num
  · norm_num

/-! ## Two calls on one page -/

/-- The cells a call appends are the cells of the observations over the table as the
call reversed it. -/
theorem cellsAdded_eq (dataset : Dataset) (page : Page) :
    cellsAdded dataset page =
      dataset.monthlyVariance.map (cell page.schemeRdYlBu11.reverse dataset) := by
  unfold cellsAdded
  rw [cells_buildHeatMap, List.drop_left]

/-- The legend rectangles a call appends are those over the table as the call reversed
it. -/
theorem legendBlocksAdded_eq (dataset : Dataset) (page : Page) :
    legendBlocksAdded dataset page = legendBlocks page.schemeRdYlBu11.reverse dataset := by
  unfold legendBlocksAdded
  rw [legendBlocks_buildHeatMap, List.drop_left]

/-- C8 (as amended). What one call of `buildHeatMap` draws is determined by the dataset
and by the order of the shared table `d3.schemeRdYlBu[11]` at the call: two calls on
pages that hold the table in the same order append the same cells and the same legend
blocks, fills included, whatever else the pages hold. The call the page makes starts
from the table as shipped. The order of the table is carried from one call to the next:
a call leaves it reversed, and a second call restores it. -/
theorem C8_output_determined_by_table (dataset : Dataset) (page1 page2 : Page)
    (h : page1.schemeRdYlBu11 = page2.schemeRdYlBu11) :
    cellsAdded dataset page1 = cellsAdded dataset page2 ∧
    (cellsAdded dataset page1).map (fun c => c.fill) =
      (cellsAdded dataset page2).map (fun c => c.fill) ∧
    legendBlocksAdded dataset page1 = legendBlocksAdded dataset page2 ∧
    (legendBlocksAdded dataset page1).map (fun b => b.fill) =
      (legendBlocksAdded dataset page2).map (fun b => b.fill) ∧
    moduleLoad.schemeRdYlBu11 = d3.schemeRdYlBu11 ∧
    (buildHeatMap dataset page1).schemeRdYlBu11 = page1.schemeRdYlBu11.reverse ∧
    (buildHeatMap dataset (buildHeatMap dataset page1)).schemeRdYlBu11 =
      page1.schemeRdYlBu11 := by
  have hc : cellsAdded dataset page1 = cellsAdded dataset page2 := by
    rw [cellsAdded_eq, cellsAdded_eq, h]
  have hl : legendBlocksAdded dataset page1 = legendBlocksAdded dataset page2 := by
    rw [legendBlocksAdded_eq, legendBlocksAdded_eq, h]
  refine ⟨hc, by rw [hc], hl, by rw [hl], rfl, rfl, ?_⟩
  show page1.schemeRdYlBu11.reverse.reverse = page1.schemeRdYlBu11
  exact List.reverse_reverse _

/-- C8 (as amended) on the sample dataset: the page as loaded and the page after two
calls hold the table in the same order, and a call draws the same on both. -/
theorem C8_output_determined_by_table_witness :
    cellsAdded sampleDataset moduleLoad =
      cellsAdded sampleDataset
        (buildHeatMap sampleDataset (buildHeatMap sampleDataset moduleLoad)) ∧
    legendBlocksAdded sampleDataset moduleLoad =
      legendBlocksAdded sampleDataset
        (buildHeatMap sampleDataset (buildHeatMap sampleDataset moduleLoad)) :=
  ⟨(C8_output_determined_by_table sampleDataset moduleLoad
      (buildHeatMap sampleDataset (buildHeatMap sampleDataset moduleLoad))
      (List.reverse_reverse d3.schemeRdYlBu11).symm).1,
   (C8_output_determined_by_table sampleDataset moduleLoad
      (buildHeatMap sampleDataset (buildHeatMap sampleDataset moduleLoad))
      (List.reverse_reverse d3.schemeRdYlBu11).symm).2.2.1⟩

/-- C8 as stated fails on the sample dataset: the first call on the loaded page fills
its two cells `#4575b4` and `#a50026`, a second call on the same page fills the cells of
the same two observations `#d73027` and `#313695`; the legend fills differ as well. -/
theorem C8_counterexample :
    (cellsAdded sampleDataset moduleLoad).map (fun c => c.fill) =
      [some "#4575b4", some "#a50026"] ∧
    (cellsAdded sampleDataset (buildHeatMap sampleDataset moduleLoad)).map (fun c => c.fill) =
      [some "#d73027", some "#313695"] ∧
    ¬ ((cellsAdded sampleDataset moduleLoad).map (fun c => c.fill) =
      (cellsAdded sampleDataset (buildHeatMap sampleDataset moduleLoad)).map
        (fun c => c.fill)) ∧
    ¬ ((legendBlocksAdded sampleDataset moduleLoad).map (fun b => b.fill) =
      (legendBlocksAdded sampleDataset (buildHeatMap sampleDataset moduleLoad)).map
        (fun b => b.fill)) := by
  have hp1 : (buildHeatMap sampleDataset moduleLoad).schemeRdYlBu11 =
      d3.schemeRdYlBu11.reverse := rfl
  have hc1 : (cellsAdded sampleDataset moduleLoad).map (fun c => c.fill) =
      [some "#4575b4", some "#a50026"] := by
    rw [cellsAdded_eq, List.map_map]
    simp only [Function.comp_def, moduleLoad]
    rw [sample_cell_fills d3.schemeRdYlBu11.reverse rfl]
    rfl
  have hc2 : (cellsAdded sampleDataset (buildHeatMap sampleDataset moduleLoad)).map
      (fun c => c.fill) = [some "#d73027", some "#313695"] := by
    rw [cellsAdded_eq, hp1, List.reverse_reverse, List.map_map]
    simp only [Function.comp_def]
    rw [sample_cell_fills d3.schemeRdYlBu11 rfl]
    rfl
  have hl1 : (legendBlocksAdded sampleDataset moduleLoad).map (fun b => b.fill) =
      (List.range 10).map (fun (k : Nat) => d3.schemeRdYlBu11.reverse.get? (k + 1)) := by
    rw [legendBlocksAdded_eq]
    exact legendBlocks_fill d3.schemeRdYlBu11.reverse rfl sampleDataset
      (-5) 5 min_sampleDataset max_sampleDataset (by norm_num)
  have hl2 : (legendBlocksAdded sampleDataset (buildHeatMap sampleDataset moduleLoad)).map
      (fun b => b.fill) =
      (List.range 10).map (fun (k : Nat) => d3.schemeRdYlBu11.get? (k + 1)) := by
    rw [legendBlocksAdded_eq, hp1, List.reverse_reverse]
    exact legendBlocks_fill d3.schemeRdYlBu11 rfl sampleDataset
      (-5) 5 min_sampleDataset max_sampleDataset (by norm_num)
  refine ⟨hc1, hc2, ?_, ?_⟩
  · rw [hc1, hc2]
    decide
  · rw [hl1, hl2]
    decide

end HeatMap
